import Mathlib

/-!
# RewardFlow: the daily-task engine

A shallow embedding of `backend/service/daily_task_service.go`, of the handlers
`GetDailyTasks`, `CompleteTaskDaily` and `CheckCooldown` of
`backend/controller/daily_task_controller.go`, of `AddPointsToUser` and
`GetLeaderboard` of `backend/service/leaderboard_service.go`, and of
`GetStreakByUserID`, `CreateStreakRecord` and `GetStreakCount` of
`backend/service/streak_service.go`.

Modelling conventions

* An instant is an `Int`: nanoseconds of server-local wall time in a
  fixed-offset zone, counted from a local midnight, so that
  `time.Date(y, m, d, 0, 0, 0, 0, loc)` is truncation to a multiple of one day
  and `AddDate(0, 0, 1)` adds 24 hours.
* Every `time.Now()` of the source is one reading of the clock.  A `World`
  carries the database together with the stream of readings still to come;
  `timeNow` takes the head of the stream.  A call made "at instant `now`" is a
  call in a world whose clock is constantly `now` (`atInstant`).
* A MongoDB collection is the list of its documents in insertion (natural)
  order.  `InsertOne` appends and assigns the next fresh `_id`; `FindOne`,
  `UpdateOne` and `FindOneAndUpdate` act on the first matching document;
  `DeleteMany` removes all matching documents; a sorted `Find` is a stable sort
  of the matching documents.
* A stored document holds every time field as a BSON datetime, that is in whole
  milliseconds (`bsonDateTime`): `InsertOne` and `$set` drop what is below the
  millisecond, and a decoded document carries the stored instants.  A struct
  that a function built itself and returns keeps its own readings.  The
  midnights used in filters are whole milliseconds, so encoding leaves them as
  they are.
* Driver failures (network, time-outs) are outside the model, so the
  `if err != nil` branches that only forward them do not appear; the one
  driver error kept is `mongo.ErrNoDocuments`.  The TTL monitor is a background
  job of the database and takes no step here.  Log lines are omitted.
* A sort document given as a `bson.M` with two keys has no key order of its own;
  what the driver makes of it is a parameter (`SortReading`): either key first,
  or the refusal of the document.
* A handler is modelled from the point where the user id has been taken from the
  token and the request body has been decoded.
-/

namespace RewardFlow

/-! ## Time

Instants (`time.Time`) and durations (`time.Duration`) are integers, in
nanoseconds. -/

/-- One second, `time.Second`, in nanoseconds. -/
def Second : Int := 1000000000

/-- One minute, `time.Minute`. -/
def Minute : Int := 60 * Second

/-- Length of a calendar day in a fixed-offset zone. -/
def Day : Int := 86400 * Second

/-- Largest `time.Duration` (int64 nanoseconds). -/
def maxDuration : Int := 9223372036854775807

/-- Smallest `time.Duration`. -/
def minDuration : Int := -9223372036854775808

/-- The method `t.Sub(u)`: the difference `t - u`, saturated to the range of
`time.Duration`. -/
def Sub (t u : Int) : Int :=
  if t - u > maxDuration then maxDuration
  else if t - u < minDuration then minDuration
  else t - u

/-- The method `t.Before(u)`. -/
def Before (t u : Int) : Bool := decide (t < u)

/-- The method `t.Add(d)`. -/
def Add (t : Int) (d : Int) : Int := t + d

/-- The call `t.AddDate(0, 0, days)` in a fixed-offset zone. -/
def AddDate (t : Int) (days : Int) : Int := t + days * Day

/-- The call `time.Date(t.Year(), t.Month(), t.Day(), 0, 0, 0, 0, t.Location())`:
the start of the calendar day of `t`. -/
def startOfDay (t : Int) : Int := t - t % Day

/-- One millisecond, `time.Millisecond`. -/
def Millisecond : Int := 1000000

/-- The instant that a BSON datetime holds for `t`.  The driver writes a
`time.Time` as whole milliseconds (`primitive.NewDateTimeFromTime`, which drops
the rest of `t.Nanosecond()` below the millisecond), and decoding a document
gives that instant back.  Zone offsets are whole seconds, so the milliseconds
of local time are those of the epoch. -/
def bsonDateTime (t : Int) : Int := t - t % Millisecond

/-- The conversion `int(d.Seconds())`.  `Seconds` is
`float64(d / Second) + float64(d % Second) / 1e9` and `int` truncates toward
zero; for `|d|` below `2^24` seconds the floating-point sum cannot reach the
next integer, so the result is the truncated quotient.  For longer durations
the sum can round up to the next integer; the definition keeps the truncated
quotient there. -/
def secondsInt (d : Int) : Int := Int.tdiv d Second

/-! ## Documents -/

abbrev ObjectID := Nat

/-- The struct `model.DailyTask`. -/
structure DailyTask where
  ID : ObjectID
  UserID : String
  TaskNumber : Int
  Completed : Bool
  CompletedAt : Option Int
  CreatedAt : Int
  ResetAt : Int
  deriving DecidableEq, Repr

/-- The struct `model.DailyTaskProgress`. -/
structure DailyTaskProgress where
  ID : ObjectID
  UserID : String
  CompletedCount : Int
  LastCompletedAt : Option Int
  LastCooldownEnd : Option Int
  NextResetAt : Int
  CreatedAt : Int
  UpdatedAt : Int
  deriving DecidableEq, Repr

/-- The two collections of the daily-task engine and the supply of fresh
object ids. -/
structure DB where
  daily_tasks : List DailyTask
  daily_task_progress : List DailyTaskProgress
  nextID : ObjectID
  deriving DecidableEq, Repr

/-- The database together with the clock readings still to come. -/
structure World where
  db : DB
  clock : Nat → Int

/-- The empty database; the first generated id is 1 (0 is `NilObjectID`). -/
def emptyDB : DB := { daily_tasks := [], daily_task_progress := [], nextID := 1 }

/-- A world in which every clock reading is `now`. -/
def atInstant (db : DB) (now : Int) : World := { db := db, clock := fun _ => now }

/-- The call `time.Now()`: the next clock reading. -/
def timeNow (w : World) : Int × World :=
  (w.clock 0, { w with clock := fun k => w.clock (k + 1) })

/-! ## Collection primitives -/

/-- First document that matches, as `FindOne` returns it. -/
def findOne {α : Type} (p : α → Bool) (l : List α) : Option α := l.find? p

/-- Apply `f` to the first document that matches, as `UpdateOne` does. -/
def updateOne {α : Type} (p : α → Bool) (f : α → α) : List α → List α
  | [] => []
  | x :: xs => if p x then f x :: xs else x :: updateOne p f xs

/-- Remove every document that matches, as `DeleteMany` does. -/
def deleteMany {α : Type} (p : α → Bool) (l : List α) : List α :=
  l.filter (fun x => !p x)

/-- Insert into a list sorted by `task_number`, after the equal keys. -/
def insertByTaskNumber (t : DailyTask) : List DailyTask → List DailyTask
  | [] => [t]
  | x :: xs => if t.TaskNumber < x.TaskNumber then t :: x :: xs
               else x :: insertByTaskNumber t xs

/-- Stable sort by `task_number` ascending (`SetSort(bson.M{"task_number": 1})`). -/
def sortByTaskNumber (l : List DailyTask) : List DailyTask :=
  l.foldl (fun acc t => insertByTaskNumber t acc) []

/-- The document that the store holds for a `DailyTask`: every time field as a
BSON datetime. -/
def storedTask (t : DailyTask) : DailyTask :=
  { t with CompletedAt := t.CompletedAt.map bsonDateTime,
           CreatedAt := bsonDateTime t.CreatedAt,
           ResetAt := bsonDateTime t.ResetAt }

/-- The document that the store holds for a `DailyTaskProgress`. -/
def storedProgress (p : DailyTaskProgress) : DailyTaskProgress :=
  { p with LastCompletedAt := p.LastCompletedAt.map bsonDateTime,
           LastCooldownEnd := p.LastCooldownEnd.map bsonDateTime,
           NextResetAt := bsonDateTime p.NextResetAt,
           CreatedAt := bsonDateTime p.CreatedAt,
           UpdatedAt := bsonDateTime p.UpdatedAt }

/-- The call `InsertOne` on `daily_tasks`: the document gets a fresh id. -/
def insertTask (w : World) (t : DailyTask) : ObjectID × World :=
  (w.db.nextID,
   { w with db := { w.db with
       daily_tasks := w.db.daily_tasks ++ [storedTask { t with ID := w.db.nextID }],
       nextID := w.db.nextID + 1 } })

/-- The call `InsertOne` on `daily_task_progress`. -/
def insertProgress (w : World) (p : DailyTaskProgress) : ObjectID × World :=
  (w.db.nextID,
   { w with db := { w.db with
       daily_task_progress :=
         w.db.daily_task_progress ++ [storedProgress { p with ID := w.db.nextID }],
       nextID := w.db.nextID + 1 } })

/-! ## Object ids -/

/-- Value of one hexadecimal digit, as `encoding/hex` reads it. -/
def fromHexChar (c : Char) : Option Nat :=
  if 48 ≤ c.toNat ∧ c.toNat ≤ 57 then some (c.toNat - 48)
  else if 97 ≤ c.toNat ∧ c.toNat ≤ 102 then some (c.toNat - 97 + 10)
  else if 65 ≤ c.toNat ∧ c.toNat ≤ 70 then some (c.toNat - 65 + 10)
  else none

/-- The call `primitive.ObjectIDFromHex`: the string must be 24 bytes long and
consist of hexadecimal digits; the id is the number they spell. -/
def ObjectIDFromHex (s : String) : Option ObjectID :=
  if s.utf8ByteSize ≠ 24 then none
  else s.data.foldl
    (fun acc c => acc.bind (fun a => (fromHexChar c).map (fun d => a * 16 + d)))
    (some 0)

/-! ## The service: `daily_task_service.go` -/

/-- Reduction of an integer to the int64 range, as Go arithmetic wraps. -/
def wrapInt64 (x : Int) : Int := (x + 9223372036854775808) % 18446744073709551616 - 9223372036854775808

/-- The function `getTodayMidnight`: reads the clock and truncates to the day. -/
def getTodayMidnight (w : World) : Int × World :=
  let n := timeNow w
  (startOfDay n.1, n.2)

/-- The method `GetOrCreateProgress`. -/
def GetOrCreateProgress (w : World) (userID : String) : DailyTaskProgress × World :=
  let m := getTodayMidnight w
  let today := m.1
  let tomorrow := AddDate today 1
  match findOne (fun p => p.UserID == userID) m.2.db.daily_task_progress with
  | some progress => (progress, m.2)
  | none =>
    let c := timeNow m.2
    let u := timeNow c.2
    let progress : DailyTaskProgress :=
      { ID := 0, UserID := userID, CompletedCount := 0, LastCompletedAt := none,
        LastCooldownEnd := none, NextResetAt := tomorrow, CreatedAt := c.1, UpdatedAt := u.1 }
    let ins := insertProgress u.2 progress
    ({ progress with ID := ins.1 }, ins.2)

/-- One iteration of the loop of `createFiveTasks`, for task number `i`. -/
def createTaskStep (userID : String) (tomorrow : Int)
    (acc : List DailyTask × World) (i : Int) : List DailyTask × World :=
  let n := timeNow acc.2
  let task : DailyTask :=
    { ID := 0, UserID := userID, TaskNumber := i, Completed := false, CompletedAt := none,
      CreatedAt := n.1, ResetAt := tomorrow }
  let ins := insertTask n.2 task
  (acc.1 ++ [{ task with ID := ins.1 }], ins.2)

/-- The method `createFiveTasks`: `for i := 1; i <= 5; i++`. -/
def createFiveTasks (w : World) (userID : String) (_today tomorrow : Int) :
    List DailyTask × World :=
  [1, 2, 3, 4, 5].foldl (createTaskStep userID tomorrow) ([], w)

/-- The method `GetOrCreateDailyTasks`. -/
def GetOrCreateDailyTasks (w : World) (userID : String) : List DailyTask × World :=
  let m := getTodayMidnight w
  let today := m.1
  let tomorrow := AddDate today 1
  let tasks := sortByTaskNumber (m.2.db.daily_tasks.filter
    (fun t => t.UserID == userID && decide (today ≤ t.ResetAt) && decide (t.ResetAt < tomorrow)))
  if tasks.length = 0 then createFiveTasks m.2 userID today tomorrow
  else (tasks, m.2)

/-- The method `CheckAndResetDaily`. -/
def CheckAndResetDaily (w : World) (userID : String) : World :=
  let g := GetOrCreateProgress w userID
  let progress := g.1
  let n := timeNow g.2
  let now := n.1
  let m := getTodayMidnight n.2
  let today := m.1
  if Before progress.NextResetAt now then
    let w1 : World := { m.2 with db := { m.2.db with
      daily_tasks := deleteMany
        (fun t => t.UserID == userID && decide (t.ResetAt < today)) m.2.db.daily_tasks } }
    let tomorrow := AddDate today 1
    let c := createFiveTasks w1 userID today tomorrow
    { c.2 with db := { c.2.db with
      daily_task_progress := updateOne (fun p => p.UserID == userID)
        (fun p => { p with CompletedCount := 0, LastCompletedAt := none, LastCooldownEnd := none,
                           NextResetAt := bsonDateTime tomorrow,
                           UpdatedAt := bsonDateTime now })
        c.2.db.daily_task_progress } }
  else m.2

/-- The map that `CompleteTask` returns: the cooldown payload or the success
payload. -/
inductive CompleteResult where
  | cooldown (error : String) (remaining_seconds : Int)
  | success (task : DailyTask) (completed_count : Int) (next_reset_at : Int)
      (cooldown_until : Int)
  deriving DecidableEq, Repr

/-- The pair `(map[string]interface{}, error)` returned by `CompleteTask`. -/
structure CompleteReturn where
  result : Option CompleteResult
  err : Option String
  deriving DecidableEq, Repr

/-- Text of `mongo.ErrNoDocuments`. -/
def ErrNoDocuments : String := "mongo: no documents in result"

/-- The cooldown check of `CompleteTask`: the payload of the rejection, if the
check rejects. -/
def cooldownRejection (progress : DailyTaskProgress) (now : Int) : Option CompleteResult :=
  match progress.LastCompletedAt with
  | some last =>
    let elapsed := Sub now last
    if elapsed < 5 * Minute then
      let remainingSeconds := secondsInt (wrapInt64 (5 * Minute - elapsed))
      some (CompleteResult.cooldown
        ("cooldown active, wait " ++ toString remainingSeconds ++ " seconds") remainingSeconds)
    else none
  | none => none

/-- The method `CompleteTask`. -/
def CompleteTask (w : World) (userID taskID : String) : CompleteReturn × World :=
  let w1 := CheckAndResetDaily w userID
  let g := GetOrCreateProgress w1 userID
  let progress := g.1
  if progress.CompletedCount ≥ 5 then
    ({ result := none, err := some "all 5 daily tasks already completed" }, g.2)
  else
    let n := timeNow g.2
    match cooldownRejection progress n.1 with
    | some payload => ({ result := some payload, err := some "cooldown period active" }, n.2)
    | none =>
      match ObjectIDFromHex taskID with
      | none => ({ result := none, err := some "invalid task id format" }, n.2)
      | some objID =>
        let n2 := timeNow n.2
        let now := n2.1
        match findOne (fun t => t.ID == objID) n2.2.db.daily_tasks with
        | none => ({ result := none, err := some ErrNoDocuments }, n2.2)
        | some found =>
          let updatedTask : DailyTask :=
            { found with Completed := true, CompletedAt := some (bsonDateTime now) }
          let w2 : World := { n2.2 with db := { n2.2.db with
            daily_tasks := updateOne (fun t => t.ID == objID)
              (fun t => { t with Completed := true, CompletedAt := some (bsonDateTime now) })
              n2.2.db.daily_tasks } }
          let newCompletedCount := progress.CompletedCount + 1
          let m := getTodayMidnight w2
          let nextResetAt := AddDate m.1 1
          let w3 : World := { m.2 with db := { m.2.db with
            daily_task_progress := updateOne (fun p => p.UserID == userID)
              (fun p => { p with CompletedCount := newCompletedCount,
                                 LastCompletedAt := some (bsonDateTime now),
                                 LastCooldownEnd := some (bsonDateTime (Add now (5 * Minute))),
                                 NextResetAt := bsonDateTime nextResetAt,
                                 UpdatedAt := bsonDateTime now })
              m.2.db.daily_task_progress } }
          ({ result := some (CompleteResult.success updatedTask newCompletedCount nextResetAt
                               (Add now (5 * Minute))),
             err := none }, w3)

/-! ## The points ledger: `leaderboard_service.go` -/

/-- The struct `model.User`. -/
structure User where
  ID : ObjectID
  Username : String
  Email : String
  Password : String
  Role : String
  Points : Int
  deriving DecidableEq, Repr

/-- The method `LeaderboardService.AddPointsToUser` on the users collection: the
error, if any, and the collection afterwards.  `UpdateOne` with `$inc` adds to
the first user that has the id; `MatchedCount` tells whether there is one. -/
def AddPointsToUser (users : List User) (userID : String) (points : Int) :
    Option String × List User :=
  match ObjectIDFromHex userID with
  | none => (some "invalid user ID", users)
  | some userObjID =>
    let matchedCount := (users.filter (fun u => u.ID == userObjID)).length
    let updated := updateOne (fun u => u.ID == userObjID)
      (fun u => { u with Points := u.Points + points }) users
    if matchedCount = 0 then (some "user not found", updated)
    else (none, updated)

/-! ## The controller: `daily_task_controller.go` -/

/-- Body of the response of `GET tasks/daily`. -/
structure DailyTasksResponse where
  tasks : List DailyTask
  completedCount : Int
  lastCompletedAt : Option Int
  nextResetAt : Int
  cooldownUntil : Option Int
  deriving DecidableEq, Repr

/-- The handler `GetDailyTasks`, for an authenticated user. -/
def GetDailyTasks (w : World) (userID : String) : DailyTasksResponse × World :=
  let w1 := CheckAndResetDaily w userID
  let t := GetOrCreateDailyTasks w1 userID
  let g := GetOrCreateProgress t.2 userID
  ({ tasks := t.1, completedCount := g.1.CompletedCount, lastCompletedAt := g.1.LastCompletedAt,
     nextResetAt := g.1.NextResetAt, cooldownUntil := g.1.LastCooldownEnd }, g.2)

/-- The constant `POINTS_PER_TASK` of `CompleteTaskDaily`. -/
def POINTS_PER_TASK : Int := 20

/-- The entry `result["task"]` of the map returned by `CompleteTask`. -/
def resultTask : Option CompleteResult → Option DailyTask
  | some (CompleteResult.success task _ _ _) => some task
  | _ => none

/-- The entry `result["completed_count"]`. -/
def resultCompletedCount : Option CompleteResult → Option Int
  | some (CompleteResult.success _ completed_count _ _) => some completed_count
  | _ => none

/-- The entry `result["next_reset_at"]`. -/
def resultNextResetAt : Option CompleteResult → Option Int
  | some (CompleteResult.success _ _ next_reset_at _) => some next_reset_at
  | _ => none

/-- The entry `result["cooldown_until"]`. -/
def resultCooldownUntil : Option CompleteResult → Option Int
  | some (CompleteResult.success _ _ _ cooldown_until) => some cooldown_until
  | _ => none

/-- Status and body of the response of `POST tasks/complete`: 400 with an error
text, 500 with the `error` and `debug` entries, or 200 with the success body. -/
inductive CompleteTaskResponse where
  | badRequest (error : String)
  | serverError (error debug : String)
  | ok (success : Bool) (task : Option DailyTask) (completedCount nextResetAt
      cooldownUntil : Option Int) (pointsAwarded : Int)
  deriving DecidableEq, Repr

/-- The handler `CompleteTaskDaily`, for an authenticated user and a decoded body
whose `taskId` entry is `taskID` (empty when absent): the response, the world and
the users collection afterwards. -/
def CompleteTaskDaily (w : World) (users : List User) (userID taskID : String) :
    CompleteTaskResponse × World × List User :=
  if taskID == "" then (CompleteTaskResponse.badRequest "task_id required", w, users)
  else
    let r := CompleteTask w userID taskID
    match r.1.err with
    | some err => (CompleteTaskResponse.serverError err err, r.2, users)
    | none =>
      let a := AddPointsToUser users userID POINTS_PER_TASK
      (CompleteTaskResponse.ok true (resultTask r.1.result) (resultCompletedCount r.1.result)
         (resultNextResetAt r.1.result) (resultCooldownUntil r.1.result) POINTS_PER_TASK,
       r.2, a.2)

/-- Body of the response of `GET tasks/cooldown`. -/
structure CooldownResponse where
  isCooldownActive : Bool
  remainingSeconds : Int
  lastCompletedAt : Option Int
  completedCount : Int
  deriving DecidableEq, Repr

/-- The handler `CheckCooldown`, for an authenticated user.  `time.Since(t)` is
`time.Now().Sub(t)`, one reading of the clock, taken only when lastCompletedAt
is set. -/
def CheckCooldown (w : World) (userID : String) : CooldownResponse × World :=
  let g := GetOrCreateProgress w userID
  let progress := g.1
  let check : (Bool × Int) × World :=
    match progress.LastCompletedAt with
    | some last =>
      let n := timeNow g.2
      let elapsed := Sub n.1 last
      if elapsed < 5 * Minute then
        ((true, secondsInt (wrapInt64 (5 * Minute - elapsed))), n.2)
      else ((false, 0), n.2)
    | none => ((false, 0), g.2)
  ({ isCooldownActive := check.1.1, remainingSeconds := check.1.2,
     lastCompletedAt := progress.LastCompletedAt, completedCount := progress.CompletedCount },
   check.2)

/-! ## The leaderboard: `leaderboard_service.go` -/

/-- The struct `model.LeaderboardUser`. -/
structure LeaderboardUser where
  ID : ObjectID
  Username : String
  Email : String
  Points : Int
  Rank : Int
  deriving DecidableEq, Repr

/-- What the driver makes of the sort document `bson.M{"points": -1, "username": 1}`.
A `bson.M` is a Go map, and a Go map has no key order: the driver writes the keys
in the iteration order of the map, which the language leaves unspecified, so
either key may come first; drivers that check ordered arguments refuse a map with
more than one key. -/
inductive SortReading where
  | pointsThenUsername
  | usernameThenPoints
  | rejected
  deriving DecidableEq, Repr

/-- The simple binary comparison of strings, MongoDB's default collation: code
point by code point, which is the byte order of their UTF-8 encodings. -/
def stringBefore : List Char → List Char → Bool
  | [], [] => false
  | [], _ :: _ => true
  | _ :: _, [] => false
  | a :: as, b :: bs =>
    if a.toNat < b.toNat then true
    else if b.toNat < a.toNat then false
    else stringBefore as bs

/-- Whether `a` sorts strictly before `b` under a reading of the sort document:
points descending and username ascending, in the order of the keys. -/
def sortsBefore : SortReading → User → User → Bool
  | SortReading.pointsThenUsername, a, b =>
    decide (a.Points > b.Points) || (a.Points == b.Points && stringBefore a.Username.data b.Username.data)
  | SortReading.usernameThenPoints, a, b =>
    stringBefore a.Username.data b.Username.data || (a.Username == b.Username && decide (a.Points > b.Points))
  | SortReading.rejected, _, _ => false

/-- Insert into a sorted list, after the elements that do not sort after `x`. -/
def insertSorted {α : Type} (before : α → α → Bool) (x : α) : List α → List α
  | [] => [x]
  | y :: ys => if before x y then x :: y :: ys else y :: insertSorted before x ys

/-- Stable sort of a collection in natural order. -/
def sortDocuments {α : Type} (before : α → α → Bool) (l : List α) : List α :=
  l.foldl (fun acc x => insertSorted before x acc) []

/-- The loop `for i := range leaderboard { leaderboard[i].Rank = i + 1 }`, from
index `i` on. -/
def assignRanks (i : Int) : List LeaderboardUser → List LeaderboardUser
  | [] => []
  | u :: rest => { u with Rank := i + 1 } :: assignRanks (i + 1) rest

/-- The method `LeaderboardService.GetLeaderboard` on the users collection, under a
reading of its sort document. -/
def GetLeaderboard (reading : SortReading) (users : List User) (limit : Int) :
    Option (List LeaderboardUser) × Option String :=
  let limit1 := if limit ≤ 0 then 10 else limit
  let limit2 := if limit1 > 100 then 100 else limit1
  match reading with
  | SortReading.rejected =>
    (none, some "multi-key map passed in for ordered parameter sort")
  | _ =>
    let found := (sortDocuments (sortsBefore reading) users).take limit2.toNat
    let leaderboard : List LeaderboardUser := found.map
      (fun u => { ID := u.ID, Username := u.Username, Email := u.Email, Points := u.Points,
                  Rank := 0 })
    (some (assignRanks 0 leaderboard), none)

/-! ## The streak: `streak_service.go` -/

/-- The struct `model.Streak`. -/
structure Streak where
  ID : ObjectID
  UserID : ObjectID
  Mon : Bool
  Tue : Bool
  Wed : Bool
  Thu : Bool
  Fri : Bool
  Sat : Bool
  Sun : Bool
  LastCheckIn : Int
  UpdatedAt : Int
  deriving DecidableEq, Repr

/-- The streak collection of `StreakService`, the next fresh object id and the
clock readings still to come. -/
structure StreakWorld where
  streaks : List Streak
  nextID : ObjectID
  clock : Nat → Int

/-- The method `StreakService.CreateStreakRecord`: a record with every flag false,
stamped with two clock readings. -/
def CreateStreakRecord (w : StreakWorld) (userObjID : ObjectID) : Streak × StreakWorld :=
  let streak : Streak :=
    { ID := w.nextID, UserID := userObjID, Mon := false, Tue := false, Wed := false,
      Thu := false, Fri := false, Sat := false, Sun := false,
      LastCheckIn := w.clock 0, UpdatedAt := w.clock 1 }
  (streak,
   { streaks := w.streaks ++
       [{ streak with LastCheckIn := bsonDateTime streak.LastCheckIn,
                      UpdatedAt := bsonDateTime streak.UpdatedAt }],
     nextID := w.nextID + 1,
     clock := fun k => w.clock (k + 2) })

/-- The method `StreakService.GetStreakByUserID`. -/
def GetStreakByUserID (w : StreakWorld) (userID : String) :
    (Option Streak × Option String) × StreakWorld :=
  match ObjectIDFromHex userID with
  | none => ((none, some "invalid user ID"), w)
  | some userObjID =>
    match findOne (fun s => s.UserID == userObjID) w.streaks with
    | some streak => ((some streak, none), w)
    | none =>
      let c := CreateStreakRecord w userObjID
      ((some c.1, none), c.2)

/-- The method `StreakService.GetStreakCount`: one `count++` for each flag that is set. -/
def GetStreakCount (w : StreakWorld) (userID : String) : (Int × Option String) × StreakWorld :=
  let g := GetStreakByUserID w userID
  match g.1.1 with
  | none => ((0, g.1.2), g.2)
  | some streak =>
    let c0 : Int := 0
    let c1 := if streak.Mon then c0 + 1 else c0
    let c2 := if streak.Tue then c1 + 1 else c1
    let c3 := if streak.Wed then c2 + 1 else c2
    let c4 := if streak.Thu then c3 + 1 else c3
    let c5 := if streak.Fri then c4 + 1 else c4
    let c6 := if streak.Sat then c5 + 1 else c5
    let c7 := if streak.Sun then c6 + 1 else c6
    ((c7, none), g.2)

/-! ## Sequential runs -/

/-- One engine call of a sequential run. -/
inductive Call where
  | getOrCreateDailyTasks (userID : String)
  | getOrCreateProgress (userID : String)
  | checkAndResetDaily (userID : String)
  | completeTask (userID taskID : String)
  deriving DecidableEq, Repr

/-- The store after one call made at instant `now`. -/
def stepAt (db : DB) (now : Int) : Call → DB
  | Call.getOrCreateDailyTasks u => (GetOrCreateDailyTasks (atInstant db now) u).2.db
  | Call.getOrCreateProgress u => (GetOrCreateProgress (atInstant db now) u).2.db
  | Call.checkAndResetDaily u => (CheckAndResetDaily (atInstant db now) u).db
  | Call.completeTask u t => (CompleteTask (atInstant db now) u t).2.db

/-- The store after a sequential run of timed calls, starting from `db`. -/
def runCalls (db : DB) (calls : List (Int × Call)) : DB :=
  calls.foldl (fun d c => stepAt d c.1 c.2) db

/-- Whether a call is a completion by `userID` that succeeds on `db` at `now`. -/
def isSuccessfulCompletion (db : DB) (userID : String) (now : Int) : Call → Bool
  | Call.completeTask u taskID =>
    decide (u = userID) && (CompleteTask (atInstant db now) u taskID).1.err.isNone
  | _ => false

/-- Number of successful completions by `userID` in a sequential run from `db`. -/
def successfulCompletions (db : DB) (userID : String) : List (Int × Call) → Nat
  | [] => 0
  | c :: rest =>
    (if isSuccessfulCompletion db userID c.1 c.2 then 1 else 0)
      + successfulCompletions (stepAt db c.1 c.2) userID rest

/-! ## The quantities the properties speak about -/

/-- The stored progress record of a user (the one `FindOne` and `UpdateOne` select). -/
def progressOf (db : DB) (userID : String) : Option DailyTaskProgress :=
  findOne (fun p => p.UserID == userID) db.daily_task_progress

/-- The progress record that `CompleteTask` loads after its reset check, with
the world in which the limit and cooldown checks then run. -/
def loadedProgress (w : World) (userID : String) : DailyTaskProgress × World :=
  GetOrCreateProgress (CheckAndResetDaily w userID) userID

/-- The stored tasks of a user that carry the reset boundary `resetAt`. -/
def taskSet (db : DB) (userID : String) (resetAt : Int) : List DailyTask :=
  db.daily_tasks.filter (fun t => t.UserID == userID && decide (t.ResetAt = resetAt))

/-- Number of completed tasks in the current task set of a user at `now`: the
set whose boundary is the midnight following `now`. -/
def completedInCurrentSet (db : DB) (userID : String) (now : Int) : Nat :=
  ((taskSet db userID (AddDate (startOfDay now) 1)).filter (fun t => t.Completed)).length

/-- The `remaining_seconds` entry of the map returned by `CompleteTask`, if any. -/
def remainingSecondsOf (r : CompleteReturn) : Option Int :=
  match r.result with
  | some (CompleteResult.cooldown _ remaining_seconds) => some remaining_seconds
  | _ => none

/-- Ceiling of a duration in whole seconds, the rounding the specification names. -/
def ceilSeconds (d : Int) : Int := -((-d) / Second)

/-- State of a user's progress on the calendar day starting at `day`, after `k`
successful completions counted on that day: the stored count is at least `k`, and
once a completion was counted the record carries the next midnight. -/
def dayInvariant (db : DB) (userID : String) (day : Int) (k : Nat) : Prop :=
  (∀ p, progressOf db userID = some p → (k : Int) ≤ p.CompletedCount) ∧
  (1 ≤ k → ∃ p, progressOf db userID = some p ∧ p.NextResetAt = AddDate day 1)

/-- The points of the user with object id `uid`. -/
def pointsOf (users : List User) (uid : ObjectID) : Option Int :=
  (findOne (fun u => u.ID == uid) users).map (fun u => u.Points)

/-- The task number `n` that `createFiveTasks` builds, with the given time
fields. -/
def freshTask (id : ObjectID) (userID : String) (n : Int) (createdAt resetAt : Int) : DailyTask :=
  { ID := id, UserID := userID, TaskNumber := n, Completed := false, CompletedAt := none,
    CreatedAt := createdAt, ResetAt := resetAt }

/-- The progress record that the store holds after `GetOrCreateProgress` inserted
one at `now`. -/
def freshProgress (id : ObjectID) (userID : String) (now : Int) : DailyTaskProgress :=
  { ID := id, UserID := userID, CompletedCount := 0, LastCompletedAt := none,
    LastCooldownEnd := none, NextResetAt := AddDate (startOfDay now) 1,
    CreatedAt := bsonDateTime now, UpdatedAt := bsonDateTime now }

/-- The stored progress record after a reset at `now`. -/
def resetProgress (p : DailyTaskProgress) (now : Int) : DailyTaskProgress :=
  { p with CompletedCount := 0, LastCompletedAt := none, LastCooldownEnd := none,
           NextResetAt := AddDate (startOfDay now) 1, UpdatedAt := bsonDateTime now }

/-- The stored progress record after a successful `CompleteTask` at `now`, from the
stored record `p` and the record `loaded` after the reset check. -/
def successProgress (p loaded : DailyTaskProgress) (now : Int) : DailyTaskProgress :=
  { p with CompletedCount := loaded.CompletedCount + 1,
           LastCompletedAt := some (bsonDateTime now),
           LastCooldownEnd := some (bsonDateTime now + 5 * Minute),
           NextResetAt := AddDate (startOfDay now) 1, UpdatedAt := bsonDateTime now }

/-- Bound on a stored nextResetAt at clock time `T`: a midnight, not later than the
midnight following `T`. -/
def resetBound (T : Int) (p : DailyTaskProgress) : Prop :=
  p.NextResetAt % Day = 0 ∧ p.NextResetAt ≤ AddDate (startOfDay T) 1

/-- The effective limit in the words of the specification. -/
def effectiveLimit (limit : Int) : Int :=
  if limit ≤ 0 then 10 else if limit > 100 then 100 else limit

/-- The flags of a streak record in the order Mon, Tue, Wed, Thu, Fri, Sat, Sun. -/
def weekFlags (s : Streak) : List Bool := [s.Mon, s.Tue, s.Wed, s.Thu, s.Fri, s.Sat, s.Sun]

/-- The longest run seen so far (`best`) and the run still open (`cur`), carried
through the rest of the flags. -/
def longestRunFrom (best cur : Nat) : List Bool → Nat
  | [] => max best cur
  | true :: rest => longestRunFrom best (cur + 1) rest
  | false :: rest => longestRunFrom (max best cur) 0 rest

/-- The length of the longest run of adjacent true flags. -/
def longestRun (flags : List Bool) : Nat := longestRunFrom 0 0 flags

/-- The order of the leaderboard in the words of the specification: points
descending, ties by username ascending. -/
def rankedNoLaterThan (a b : LeaderboardUser) : Prop :=
  a.Points > b.Points ∨
    (a.Points = b.Points ∧ stringBefore b.Username.data a.Username.data = false)

instance (a b : LeaderboardUser) : Decidable (rankedNoLaterThan a b) := by
  unfold rankedNoLaterThan
  infer_instance

/-! ## Concrete stores and runs used as inputs -/

/-- Nine in the morning of the day that starts at instant 0. -/
def nineAM : Int := 9 * 3600 * Second

/-- The store after the user's first visit at 09:00 of day 0: five fresh tasks
with ids 1..5 and no progress record yet. -/
def freshTasksStore : DB := runCalls emptyDB [(nineAM, Call.getOrCreateDailyTasks "u")]

/-- The store after the user completed task 1 at 09:00 on the fresh store. -/
def oneDoneStore : DB :=
  runCalls freshTasksStore [(nineAM, Call.completeTask "u" "000000000000000000000001")]

/-- The progress record held by `oneDoneStore`. -/
def oneDoneProgress : DailyTaskProgress :=
  { ID := 6, UserID := "u", CompletedCount := 1, LastCompletedAt := some nineAM,
    LastCooldownEnd := some (nineAM + 5 * Minute), NextResetAt := Day,
    CreatedAt := nineAM, UpdatedAt := nineAM }

/-- The store after a first visit of "u" at 09:00 of day 0 that only created the
progress record (nextResetAt = midnight of day 1). -/
def progressOnlyStore : DB := runCalls emptyDB [(nineAM, Call.getOrCreateProgress "u")]

/-- The store on the morning after a first day: the user opened the task list at
09:00 of day 0 and completed task number 1. -/
def morningAfterStore : DB :=
  runCalls (GetDailyTasks (atInstant emptyDB nineAM) "u").2.db
    [(nineAM, Call.completeTask "u" "000000000000000000000002")]

/-- The progress record held by `morningAfterStore`. -/
def morningAfterProgress : DailyTaskProgress :=
  { ID := 1, UserID := "u", CompletedCount := 1, LastCompletedAt := some nineAM,
    LastCooldownEnd := some (nineAM + 5 * Minute), NextResetAt := Day,
    CreatedAt := nineAM, UpdatedAt := nineAM }

/-- The store on the second morning after the task list was opened: GET
tasks/daily at 09:00 of day 1 on `morningAfterStore`.  The progress is reset,
five tasks with boundary midnight of day 2 (ids 7..11) are stored, and the five
tasks of day 0 (ids 2..6, boundary midnight of day 1) are still stored. -/
def dayTwoStore : DB := (GetDailyTasks (atInstant morningAfterStore (Day + nineAM)) "u").2.db

/-- A day of the user "u": the task list is opened at 09:00, the five tasks are
completed five minutes apart, and other calls (a reset check, another user's
first visit) happen in between. -/
def fullDayRun : List (Int × Call) :=
  [(nineAM, Call.getOrCreateDailyTasks "u"),
   (nineAM, Call.completeTask "u" "000000000000000000000001"),
   (nineAM + 5 * Minute, Call.completeTask "u" "000000000000000000000002"),
   (nineAM + 6 * Minute, Call.checkAndResetDaily "u"),
   (nineAM + 10 * Minute, Call.completeTask "u" "000000000000000000000003"),
   (nineAM + 12 * Minute, Call.getOrCreateProgress "v"),
   (nineAM + 15 * Minute, Call.completeTask "u" "000000000000000000000004"),
   (nineAM + 20 * Minute, Call.completeTask "u" "000000000000000000000005")]

/-- The store at the end of `fullDayRun`. -/
def fiveDoneStore : DB := runCalls emptyDB fullDayRun

/-- The progress record held by `fiveDoneStore`. -/
def fiveDoneProgress : DailyTaskProgress :=
  { ID := 6, UserID := "u", CompletedCount := 5, LastCompletedAt := some (nineAM + 20 * Minute),
    LastCooldownEnd := some (nineAM + 25 * Minute), NextResetAt := Day,
    CreatedAt := nineAM, UpdatedAt := nineAM + 20 * Minute }

/-- The user id of "alice", the hexadecimal form of the object id 255. -/
def aliceID : String := "0000000000000000000000ff"

/-- A users collection holding "alice" with 40 points. -/
def aliceUsers : List User :=
  [{ ID := 255, Username := "alice", Email := "alice@example.com", Password := "",
     Role := "user", Points := 40 }]

/-- The store after alice's first visit at 09:00 of day 0 (tasks with ids 1..5). -/
def aliceStore : DB := runCalls emptyDB [(nineAM, Call.getOrCreateDailyTasks aliceID)]

/-- The store late on day 0: the user opened the task list and completed task 1 two
minutes before the midnight of day 1. -/
def lateEveningStore : DB :=
  runCalls emptyDB
    [(Day - 2 * Minute, Call.getOrCreateDailyTasks "u"),
     (Day - 2 * Minute, Call.completeTask "u" "000000000000000000000001")]

/-- A users collection with "alice" (10 points) stored before "bob" (50 points). -/
def twoUsers : List User :=
  [{ ID := 1, Username := "alice", Email := "alice@example.com", Password := "", Role := "user",
     Points := 10 },
   { ID := 2, Username := "bob", Email := "bob@example.com", Password := "", Role := "user",
     Points := 50 }]

/-- A streak record of user 1 with Monday and Wednesday checked in, Tuesday not. -/
def monWedStreak : Streak :=
  { ID := 7, UserID := 1, Mon := true, Tue := false, Wed := true, Thu := false, Fri := false,
    Sat := false, Sun := false, LastCheckIn := nineAM, UpdatedAt := nineAM }

/-- A streak collection holding `monWedStreak`, read at nine in the morning. -/
def monWedWorld : StreakWorld := { streaks := [monWedStreak], nextID := 8, clock := fun _ => nineAM }

/-- The `Find` of `GetOrCreateDailyTasks` on a store at the instant `now`: the
user's tasks with `reset_at` in `[today, tomorrow)`, sorted by `task_number`. -/
def dailyTasksFind (db : DB) (userID : String) (now : Int) : List DailyTask :=
  sortByTaskNumber (db.daily_tasks.filter
    (fun t => t.UserID == userID && decide (startOfDay now ≤ t.ResetAt) &&
      decide (t.ResetAt < AddDate (startOfDay now) 1)))

/-- The store written by `createFiveTasks` for user "u" at 09:00 of day 0, with
today = 0 and tomorrow = `Day`. -/
def createdStore : DB := (createFiveTasks (atInstant emptyDB nineAM) "u" 0 Day).2.db

/-- An operation reads at most `n` clock readings: on two worlds with the same
store whose clocks agree on the first `n` readings it returns the same value and
the same store, and it leaves both clocks advanced by the same number `j ≤ n` of
readings. -/
def ReadsAtMost {α : Type} (n : Nat) (f : World → α × World) : Prop :=
  ∀ w1 w2 : World, w1.db = w2.db → (∀ k, k < n → w1.clock k = w2.clock k) →
    (f w1).1 = (f w2).1 ∧ (f w1).2.db = (f w2).2.db ∧
    ∃ j, j ≤ n ∧ (∀ k, (f w1).2.clock k = w1.clock (k + j)) ∧
      (∀ k, (f w2).2.clock k = w2.clock (k + j))

/-- A clock that returns 09:05 of day 0 at every reading. -/
def steadyClock : Nat → Int := fun _ => nineAM + 5 * Minute

/-- A clock that starts at 09:05 of day 0 and advances by one millisecond from one
reading to the next. -/
def tickingClock : Nat → Int := fun k => nineAM + 5 * Minute + k * Millisecond

/-- A clock that returns 09:05 of day 0 for its first sixteen readings and the
epoch afterwards. -/
def cutClock : Nat → Int := fun k => if k < 16 then nineAM + 5 * Minute else 0

/-- Number of the calendar day of an instant, counted from the day of the epoch in
the zone of the server; year, month and day of the month are a function of it. -/
def dayNumber (t : Int) : Int := t / Day

/-- Hour of the day of an instant. -/
def hourOf (t : Int) : Int := t % Day / (60 * Minute)

/-- Minute of the hour of an instant. -/
def minuteOf (t : Int) : Int := t % (60 * Minute) / Minute

/-- Second of the minute of an instant. -/
def secondOf (t : Int) : Int := t % Minute / Second

/-- Nanosecond of the second of an instant. -/
def nanosecondOf (t : Int) : Int := t % Second

/-! ## Lemmas on the collection primitives and on calls at one instant -/

theorem find?_updateOne {α : Type} (p : α → Bool) (f : α → α)
    (hf : ∀ x, p x = true → p (f x) = true) (l : List α) :
    (updateOne p f l).find? p = (l.find? p).map f := by
  induction l with
  | nil => simp [updateOne]
  | cons x xs ih =>
    by_cases hx : p x = true
    · simp [updateOne, hx, hf x hx]
    · simp [updateOne, hx, ih]

theorem startOfDay_le (t : Int) : startOfDay t ≤ t := by
  unfold startOfDay Day Second
  omega

theorem lt_startOfDay_add (t : Int) : t < AddDate (startOfDay t) 1 := by
  unfold AddDate startOfDay Day Second
  omega

theorem Sub_lt_iff (t u : Int) : Sub t u < 5 * Minute ↔ t - u < 5 * Minute := by
  unfold Sub Minute Second maxDuration minDuration
  split
  · omega
  · split <;> omega

theorem timeNow_atInstant (db : DB) (now : Int) :
    timeNow (atInstant db now) = (now, atInstant db now) := rfl

theorem getTodayMidnight_atInstant (db : DB) (now : Int) :
    getTodayMidnight (atInstant db now) = (startOfDay now, atInstant db now) := rfl

theorem atInstant_db (db : DB) (now : Int) : (atInstant db now).db = db := rfl

theorem bsonDateTime_le (t : Int) : bsonDateTime t ≤ t := by
  unfold bsonDateTime Millisecond
  omega

theorem lt_bsonDateTime_add (t : Int) : t < bsonDateTime t + Millisecond := by
  unfold bsonDateTime Millisecond
  omega

theorem bsonDateTime_of_mod (t : Int) (h : t % Millisecond = 0) : bsonDateTime t = t := by
  unfold bsonDateTime
  omega

theorem bsonDateTime_idem (t : Int) : bsonDateTime (bsonDateTime t) = bsonDateTime t := by
  unfold bsonDateTime Millisecond
  omega

theorem bsonDateTime_startOfDay (t : Int) : bsonDateTime (startOfDay t) = startOfDay t := by
  unfold bsonDateTime startOfDay Millisecond Day Second
  omega

theorem bsonDateTime_tomorrow (t : Int) :
    bsonDateTime (AddDate (startOfDay t) 1) = AddDate (startOfDay t) 1 := by
  unfold bsonDateTime AddDate startOfDay Millisecond Day Second
  omega

theorem bsonDateTime_of_day (t : Int) (h : t % Day = 0) : bsonDateTime t = t := by
  unfold bsonDateTime Millisecond
  unfold Day Second at h
  omega

theorem bsonDateTime_add_minutes (t : Int) :
    bsonDateTime (Add t (5 * Minute)) = bsonDateTime t + 5 * Minute := by
  unfold bsonDateTime Add Millisecond Minute Second
  omega

/-- After `GetOrCreateProgress` the user has a stored record: the one found and
returned, or the stored form of the one created and returned. -/
theorem GetOrCreateProgress_stored (w : World) (userID : String) :
    (progressOf w.db userID = some (GetOrCreateProgress w userID).1 ∧
      (GetOrCreateProgress w userID).2.db = w.db) ∨
    (progressOf w.db userID = none ∧
      progressOf (GetOrCreateProgress w userID).2.db userID
        = some (storedProgress (GetOrCreateProgress w userID).1)) := by
  unfold GetOrCreateProgress progressOf
  simp only []
  split
  · next p hp => exact Or.inl ⟨hp, rfl⟩
  · next hn =>
    refine Or.inr ⟨hn, ?_⟩
    simp only [findOne, getTodayMidnight, timeNow, insertProgress, List.find?_append] at hn ⊢
    rw [hn]
    simp [storedProgress]

theorem GetOrCreateProgress_exists (w : World) (userID : String) :
    ∃ q, progressOf (GetOrCreateProgress w userID).2.db userID = some q := by
  rcases GetOrCreateProgress_stored w userID with ⟨h1, h2⟩ | ⟨_, h2⟩
  · exact ⟨_, by rw [h2]; exact h1⟩
  · exact ⟨_, h2⟩

theorem GetOrCreateProgress_some (w : World) (userID : String) (p : DailyTaskProgress)
    (h : progressOf w.db userID = some p) :
    (GetOrCreateProgress w userID).1 = p ∧ (GetOrCreateProgress w userID).2.db = w.db := by
  unfold progressOf at h
  unfold GetOrCreateProgress
  simp only [getTodayMidnight, timeNow]
  rw [h]
  exact ⟨rfl, rfl⟩

theorem GetOrCreateProgress_atInstant_some (db : DB) (now : Int) (userID : String)
    (p : DailyTaskProgress) (h : progressOf db userID = some p) :
    GetOrCreateProgress (atInstant db now) userID = (p, atInstant db now) := by
  unfold progressOf at h
  simp [GetOrCreateProgress, getTodayMidnight_atInstant, atInstant_db, h]

theorem GetOrCreateProgress_atInstant (db : DB) (now : Int) (userID : String) :
    (GetOrCreateProgress (atInstant db now) userID).2
      = atInstant (GetOrCreateProgress (atInstant db now) userID).2.db now := by
  unfold GetOrCreateProgress
  simp only [getTodayMidnight_atInstant, timeNow_atInstant]
  split <;> rfl

theorem CheckAndResetDaily_atInstant (db : DB) (now : Int) (userID : String) :
    CheckAndResetDaily (atInstant db now) userID
      = atInstant (CheckAndResetDaily (atInstant db now) userID).db now := by
  unfold CheckAndResetDaily
  simp only []
  rw [GetOrCreateProgress_atInstant]
  simp only [getTodayMidnight_atInstant, timeNow_atInstant]
  split
  · rfl
  · rfl

theorem CheckAndResetDaily_noReset (db : DB) (now : Int) (userID : String)
    (p : DailyTaskProgress) (h : progressOf db userID = some p) (hn : ¬ p.NextResetAt < now) :
    CheckAndResetDaily (atInstant db now) userID = atInstant db now := by
  unfold CheckAndResetDaily
  simp [GetOrCreateProgress_atInstant_some db now userID p h, timeNow_atInstant,
    getTodayMidnight_atInstant, Before, hn]

theorem loadedProgress_noReset (db : DB) (now : Int) (userID : String)
    (p : DailyTaskProgress) (h : progressOf db userID = some p) (hn : ¬ p.NextResetAt < now) :
    loadedProgress (atInstant db now) userID = (p, atInstant db now) := by
  unfold loadedProgress
  rw [CheckAndResetDaily_noReset db now userID p h hn,
    GetOrCreateProgress_atInstant_some db now userID p h]

/-- The progress update that a successful `CompleteTask` writes. -/
theorem CompleteTask_success (w : World) (userID taskID : String)
    (h : (CompleteTask w userID taskID).1.err = none) :
    ∃ (objID : ObjectID) (found : DailyTask),
      (loadedProgress w userID).1.CompletedCount < 5 ∧
      cooldownRejection (loadedProgress w userID).1 ((loadedProgress w userID).2.clock 0) = none ∧
      ObjectIDFromHex taskID = some objID ∧
      findOne (fun t => t.ID == objID) (loadedProgress w userID).2.db.daily_tasks = some found ∧
      CompleteTask w userID taskID =
        ({ result := some (CompleteResult.success
              { found with Completed := true,
                           CompletedAt :=
                             some (bsonDateTime ((loadedProgress w userID).2.clock 1)) }
              ((loadedProgress w userID).1.CompletedCount + 1)
              (AddDate (startOfDay ((loadedProgress w userID).2.clock 2)) 1)
              ((loadedProgress w userID).2.clock 1 + 5 * Minute)),
           err := none },
         { db :=
             { daily_tasks := updateOne (fun t => t.ID == objID)
                 (fun t => { t with Completed := true,
                                    CompletedAt :=
                                      some (bsonDateTime ((loadedProgress w userID).2.clock 1)) })
                 (loadedProgress w userID).2.db.daily_tasks,
               daily_task_progress := updateOne (fun p => p.UserID == userID)
                 (fun p => { p with
                    CompletedCount := (loadedProgress w userID).1.CompletedCount + 1,
                    LastCompletedAt := some (bsonDateTime ((loadedProgress w userID).2.clock 1)),
                    LastCooldownEnd :=
                      some (bsonDateTime ((loadedProgress w userID).2.clock 1) + 5 * Minute),
                    NextResetAt := AddDate (startOfDay ((loadedProgress w userID).2.clock 2)) 1,
                    UpdatedAt := bsonDateTime ((loadedProgress w userID).2.clock 1) })
                 (loadedProgress w userID).2.db.daily_task_progress,
               nextID := (loadedProgress w userID).2.db.nextID },
           clock := fun k => (loadedProgress w userID).2.clock (k + 3) }) := by
  unfold CompleteTask at h ⊢
  unfold loadedProgress
  simp only [] at h ⊢
  generalize GetOrCreateProgress (CheckAndResetDaily w userID) userID = g at h ⊢
  by_cases hlim : g.1.CompletedCount ≥ 5
  · simp [hlim] at h
  · cases hcd : cooldownRejection g.1 (timeNow g.2).1 with
    | some payload => simp [hlim, hcd] at h
    | none =>
      cases hid : ObjectIDFromHex taskID with
      | none => simp [hlim, hcd, hid] at h
      | some objID =>
        cases hfound : findOne (fun t => t.ID == objID)
            (timeNow (timeNow g.2).2).2.db.daily_tasks with
        | none => simp [hlim, hcd, hid, hfound, ErrNoDocuments] at h
        | some found =>
          refine ⟨objID, found, by omega, hcd, rfl, hfound, ?_⟩
          simp only [if_neg hlim, hcd, hfound, getTodayMidnight, bsonDateTime_tomorrow,
            bsonDateTime_add_minutes]
          rfl

theorem createFiveTasks_progress (w : World) (userID : String) (today tomorrow : Int) :
    (createFiveTasks w userID today tomorrow).2.db.daily_task_progress
      = w.db.daily_task_progress := rfl

theorem CheckAndResetDaily_exists (w : World) (userID : String) :
    ∃ q, progressOf (CheckAndResetDaily w userID).db userID = some q := by
  obtain ⟨q, hq⟩ := GetOrCreateProgress_exists w userID
  unfold CheckAndResetDaily
  simp only []
  split
  · simp only [progressOf, findOne, createFiveTasks_progress, getTodayMidnight, timeNow] at hq ⊢
    rw [find?_updateOne, hq]
    · exact ⟨_, rfl⟩
    · intro x hx
      exact hx
  · exact ⟨q, hq⟩

theorem loadedProgress_stored (w : World) (userID : String) :
    progressOf (loadedProgress w userID).2.db userID = some (loadedProgress w userID).1 := by
  obtain ⟨q, hq⟩ := CheckAndResetDaily_exists w userID
  obtain ⟨h1, h2⟩ := GetOrCreateProgress_some (CheckAndResetDaily w userID) userID q hq
  unfold loadedProgress
  rw [h1, h2]
  exact hq

theorem cooldownRejection_eq_none (p : DailyTaskProgress) (now : Int) :
    cooldownRejection p now = none ↔
      p.LastCompletedAt.any (fun last => decide (now - last < 5 * Minute)) = false := by
  unfold cooldownRejection
  cases hl : p.LastCompletedAt with
  | none => simp
  | some last =>
    by_cases hs : Sub now last < 5 * Minute
    · have := (Sub_lt_iff now last).1 hs
      simp [hs, this]
    · have : ¬ now - last < 5 * Minute := fun h => hs ((Sub_lt_iff now last).2 h)
      simp [hs, this]

/-- The error of `CompleteTask`, check by check, in any world. -/
theorem CompleteTask_err (w : World) (userID taskID : String) :
    (CompleteTask w userID taskID).1.err =
      if 5 ≤ (loadedProgress w userID).1.CompletedCount then
        some "all 5 daily tasks already completed"
      else if (loadedProgress w userID).1.LastCompletedAt.any
          (fun last => decide ((loadedProgress w userID).2.clock 0 - last < 5 * Minute)) then
        some "cooldown period active"
      else
        match ObjectIDFromHex taskID with
        | none => some "invalid task id format"
        | some objID =>
          match findOne (fun t => t.ID == objID) (loadedProgress w userID).2.db.daily_tasks with
          | none => some ErrNoDocuments
          | some _ => none := by
  unfold CompleteTask loadedProgress
  simp only []
  generalize GetOrCreateProgress (CheckAndResetDaily w userID) userID = g
  by_cases hlim : 5 ≤ g.1.CompletedCount
  · have hlim2 : g.1.CompletedCount ≥ 5 := hlim
    simp only [if_pos hlim, if_pos hlim2]
  · have hlim2 : ¬ g.1.CompletedCount ≥ 5 := hlim
    simp only [if_neg hlim, if_neg hlim2]
    cases hcd : cooldownRejection g.1 (timeNow g.2).1 with
    | some payload =>
      have h1 : ¬ (g.1.LastCompletedAt.any
          (fun last => decide (g.2.clock 0 - last < 5 * Minute)) = false) := by
        intro hc
        have := (cooldownRejection_eq_none _ _).2 hc
        simp only [timeNow] at hcd
        rw [this] at hcd
        cases hcd
      simp only [Bool.not_eq_false] at h1
      simp only [h1, if_true]
    | none =>
      have h1 := (cooldownRejection_eq_none _ _).1 hcd
      simp only [timeNow] at h1
      simp only [h1]
      cases hid : ObjectIDFromHex taskID with
      | none => simp
      | some objID =>
        have hdb : (timeNow (timeNow g.2).2).2.db.daily_tasks = g.2.db.daily_tasks := rfl
        simp only [hdb]
        cases hf : findOne (fun t => t.ID == objID) g.2.db.daily_tasks with
        | none => simp
        | some found => simp

theorem CompleteTask_err_db (w : World) (userID taskID : String)
    (h : (CompleteTask w userID taskID).1.err ≠ none) :
    (CompleteTask w userID taskID).2.db = (loadedProgress w userID).2.db ∧
    (CompleteTask w userID taskID).1.err ∈
      [some "all 5 daily tasks already completed", some "cooldown period active",
       some "invalid task id format", some ErrNoDocuments] := by
  unfold CompleteTask loadedProgress at *
  simp only [] at h ⊢
  generalize GetOrCreateProgress (CheckAndResetDaily w userID) userID = g at h ⊢
  by_cases hlim : g.1.CompletedCount ≥ 5
  · simp [hlim]
  · simp only [if_neg hlim] at h ⊢
    cases hcd : cooldownRejection g.1 (timeNow g.2).1 with
    | some payload => simp [timeNow]
    | none =>
      simp only [hcd] at h ⊢
      cases hid : ObjectIDFromHex taskID with
      | none => simp [timeNow]
      | some objID =>
        simp only [hid] at h ⊢
        cases hf : findOne (fun t => t.ID == objID) (timeNow (timeNow g.2).2).2.db.daily_tasks with
        | none => simp [timeNow]
        | some found =>
          simp only [hf] at h
          exact absurd rfl h

theorem CheckAndResetDaily_progress (db : DB) (now : Int) (userID : String) :
    ∃ q, progressOf (CheckAndResetDaily (atInstant db now) userID).db userID = some q ∧
      ¬ q.NextResetAt < now ∧
      (progressOf db userID = some q ∨
        (q.CompletedCount = 0 ∧ q.NextResetAt = AddDate (startOfDay now) 1 ∧
          ∀ p, progressOf db userID = some p → p.NextResetAt < now)) := by
  have hnow := lt_startOfDay_add now
  cases hp : progressOf db userID with
  | some p =>
    by_cases hb : p.NextResetAt < now
    · refine ⟨{ p with CompletedCount := 0, LastCompletedAt := none, LastCooldownEnd := none,
                       NextResetAt := AddDate (startOfDay now) 1,
                       UpdatedAt := bsonDateTime now }, ?_, ?_, ?_⟩
      · unfold CheckAndResetDaily
        simp only [GetOrCreateProgress_atInstant_some db now userID p hp, timeNow_atInstant,
          getTodayMidnight_atInstant, Before, hb, decide_True, if_true, createFiveTasks_progress,
          progressOf, findOne, bsonDateTime_tomorrow]
        rw [find?_updateOne]
        · simp only [progressOf, findOne] at hp
          simp only [atInstant_db, hp]
          rfl
        · intro x hx
          exact hx
      · simp only []
        omega
      · refine Or.inr ⟨rfl, rfl, ?_⟩
        intro p2 hp2
        cases hp2
        exact hb
    · refine ⟨p, ?_, hb, Or.inl rfl⟩
      rw [CheckAndResetDaily_noReset db now userID p hp hb]
      exact hp
  | none =>
    have hf : List.find? (fun p => p.UserID == userID) db.daily_task_progress = none := hp
    refine ⟨{ ID := db.nextID, UserID := userID, CompletedCount := 0, LastCompletedAt := none,
              LastCooldownEnd := none, NextResetAt := AddDate (startOfDay now) 1,
              CreatedAt := bsonDateTime now, UpdatedAt := bsonDateTime now }, ?_, ?_,
            Or.inr ⟨rfl, rfl, ?_⟩⟩
    · unfold CheckAndResetDaily GetOrCreateProgress
      have hnb : ¬ AddDate (startOfDay now) 1 < now := by omega
      simp [atInstant, getTodayMidnight, timeNow, findOne, hf,
        insertProgress, Before, hnb, progressOf, List.find?_append, storedProgress,
        bsonDateTime_tomorrow]
    · simp only []
      omega
    · intro p2 hp2
      cases hp2

theorem loadedProgress_atInstant (db : DB) (now : Int) (userID : String) :
    ∃ q, loadedProgress (atInstant db now) userID
        = (q, atInstant (CheckAndResetDaily (atInstant db now) userID).db now) ∧
      progressOf (CheckAndResetDaily (atInstant db now) userID).db userID = some q ∧
      ¬ q.NextResetAt < now ∧
      (progressOf db userID = some q ∨
        (q.CompletedCount = 0 ∧ q.NextResetAt = AddDate (startOfDay now) 1 ∧
          ∀ p, progressOf db userID = some p → p.NextResetAt < now)) := by
  obtain ⟨q, hq, hn, hc⟩ := CheckAndResetDaily_progress db now userID
  refine ⟨q, ?_, hq, hn, hc⟩
  unfold loadedProgress
  rw [CheckAndResetDaily_atInstant, GetOrCreateProgress_atInstant_some _ now userID q hq]
  rfl

theorem find?_updateOne_other {α : Type} (p q : α → Bool) (f : α → α)
    (hq : ∀ x, p x = true → q x = false ∧ q (f x) = false) (l : List α) :
    (updateOne p f l).find? q = l.find? q := by
  induction l with
  | nil => simp [updateOne]
  | cons x xs ih =>
    by_cases hx : p x = true
    · simp [updateOne, hx, (hq x hx).1, (hq x hx).2]
    · by_cases hqx : q x = true
      · simp [updateOne, hx, hqx]
      · simp [updateOne, hx, hqx, ih]

theorem userID_beq_false (u v w : String) (h : u ≠ v) (hw : (w == u) = true) : (w == v) = false := by
  have : w = u := by simpa using hw
  subst this
  simpa using h

theorem GetOrCreateProgress_frame (w : World) (u v : String) (h : u ≠ v) :
    progressOf (GetOrCreateProgress w u).2.db v = progressOf w.db v := by
  unfold GetOrCreateProgress progressOf
  simp only []
  split
  · rfl
  · simp only [findOne, getTodayMidnight, timeNow, insertProgress, List.find?_append]
    cases List.find? (fun p => p.UserID == v) w.db.daily_task_progress with
    | some p => rfl
    | none => simp [h, storedProgress]

theorem GetOrCreateDailyTasks_progress (w : World) (u : String) :
    (GetOrCreateDailyTasks w u).2.db.daily_task_progress = w.db.daily_task_progress := by
  unfold GetOrCreateDailyTasks
  simp only []
  split
  · rfl
  · rfl

theorem CheckAndResetDaily_frame (w : World) (u v : String) (h : u ≠ v) :
    progressOf (CheckAndResetDaily w u).db v = progressOf w.db v := by
  have hg := GetOrCreateProgress_frame w u v h
  unfold CheckAndResetDaily
  simp only []
  split
  · simp only [progressOf, findOne, createFiveTasks_progress, getTodayMidnight, timeNow] at hg ⊢
    rw [find?_updateOne_other, hg]
    intro x hx
    exact ⟨userID_beq_false u v _ h hx, userID_beq_false u v _ h hx⟩
  · exact hg

theorem loadedProgress_frame (w : World) (u v : String) (h : u ≠ v) :
    progressOf (loadedProgress w u).2.db v = progressOf w.db v := by
  unfold loadedProgress
  rw [GetOrCreateProgress_frame _ u v h, CheckAndResetDaily_frame w u v h]

theorem CompleteTask_frame (w : World) (u taskID v : String) (h : u ≠ v) :
    progressOf (CompleteTask w u taskID).2.db v = progressOf w.db v := by
  cases herr : (CompleteTask w u taskID).1.err with
  | some e =>
    have := (CompleteTask_err_db w u taskID (by rw [herr]; exact Option.some_ne_none e)).1
    rw [this, loadedProgress_frame w u v h]
  | none =>
    obtain ⟨objID, found, _, _, _, _, heq⟩ := CompleteTask_success w u taskID herr
    rw [heq, ← loadedProgress_frame w u v h]
    simp only [progressOf, findOne]
    rw [find?_updateOne_other]
    intro x hx
    exact ⟨userID_beq_false u v _ h hx, userID_beq_false u v _ h hx⟩

theorem GetOrCreateProgress_cases (w : World) (userID : String) :
    progressOf w.db userID = some (GetOrCreateProgress w userID).1 ∨
    (progressOf w.db userID = none ∧ (GetOrCreateProgress w userID).1.CompletedCount = 0) := by
  unfold GetOrCreateProgress progressOf
  simp only []
  split
  · next p hp => exact Or.inl hp
  · next hn => exact Or.inr ⟨hn, rfl⟩

theorem CompleteTask_success_atInstant (db : DB) (now : Int) (userID taskID : String)
    (h : (CompleteTask (atInstant db now) userID taskID).1.err = none) :
    ∃ q, progressOf (CompleteTask (atInstant db now) userID taskID).2.db userID = some q ∧
      q.CompletedCount = (loadedProgress (atInstant db now) userID).1.CompletedCount + 1 ∧
      q.NextResetAt = AddDate (startOfDay now) 1 := by
  obtain ⟨objID, found, _, _, _, _, heq⟩ := CompleteTask_success _ userID taskID h
  have hs := loadedProgress_stored (atInstant db now) userID
  obtain ⟨l, hl, _, _, _⟩ := loadedProgress_atInstant db now userID
  rw [heq]
  refine ⟨{ (loadedProgress (atInstant db now) userID).1 with
      CompletedCount := (loadedProgress (atInstant db now) userID).1.CompletedCount + 1,
      LastCompletedAt :=
        some (bsonDateTime ((loadedProgress (atInstant db now) userID).2.clock 1)),
      LastCooldownEnd :=
        some (bsonDateTime ((loadedProgress (atInstant db now) userID).2.clock 1) + 5 * Minute),
      NextResetAt := AddDate (startOfDay ((loadedProgress (atInstant db now) userID).2.clock 2)) 1,
      UpdatedAt := bsonDateTime ((loadedProgress (atInstant db now) userID).2.clock 1) },
    ?_, rfl, ?_⟩
  · simp only [progressOf, findOne] at hs ⊢
    rw [find?_updateOne, hs]
    · rfl
    · intro x hx
      exact hx
  · simp only [hl]
    rfl

/-- The limit check at one instant. -/
theorem CompleteTask_limit (db : DB) (now : Int) (userID taskID : String)
    (p : DailyTaskProgress) (hp : progressOf db userID = some p)
    (h5 : 5 ≤ p.CompletedCount) (hreset : ¬ p.NextResetAt < now) :
    (CompleteTask (atInstant db now) userID taskID).1
      = { result := none, err := some "all 5 daily tasks already completed" } := by
  have h5b : p.CompletedCount ≥ 5 := h5
  unfold CompleteTask
  simp only [CheckAndResetDaily_noReset db now userID p hp hreset,
    GetOrCreateProgress_atInstant_some db now userID p hp, if_pos h5b]

theorem dayInvariant_of_progress_eq (db db2 : DB) (userID : String) (day : Int) (k : Nat)
    (h : progressOf db2 userID = progressOf db userID) (hJ : dayInvariant db userID day k) :
    dayInvariant db2 userID day k := by
  unfold dayInvariant at *
  rw [h]
  exact hJ

theorem dayInvariant_reset_check (db : DB) (now : Int) (userID : String) (k : Nat)
    (hJ : dayInvariant db userID (startOfDay now) k) :
    dayInvariant (CheckAndResetDaily (atInstant db now) userID).db userID (startOfDay now) k := by
  obtain ⟨q, hq, _, hc⟩ := CheckAndResetDaily_progress db now userID
  have hnow := lt_startOfDay_add now
  cases hc with
  | inl hsame => exact dayInvariant_of_progress_eq db _ userID _ k (by rw [hq, hsame]) hJ
  | inr hfresh =>
    obtain ⟨h0, hnr, hold⟩ := hfresh
    have hk : k = 0 := by
      by_contra hk
      obtain ⟨p, hp1, hp2⟩ := hJ.2 (by omega)
      have := hold p hp1
      omega
    subst hk
    refine ⟨?_, fun h => absurd h (by omega)⟩
    intro p hp
    rw [hq] at hp
    cases hp
    simp [h0]

theorem dayInvariant_step (db : DB) (now : Int) (userID : String) (k : Nat) (c : Call)
    (hJ : dayInvariant db userID (startOfDay now) k) :
    dayInvariant (stepAt db now c) userID (startOfDay now)
      (k + if isSuccessfulCompletion db userID now c then 1 else 0) := by
  have hnow := lt_startOfDay_add now
  cases c with
  | getOrCreateDailyTasks u =>
    simp only [isSuccessfulCompletion, stepAt, Bool.false_eq_true, if_false, Nat.add_zero]
    refine dayInvariant_of_progress_eq db _ userID _ k ?_ hJ
    unfold progressOf
    rw [GetOrCreateDailyTasks_progress]
    rfl
  | getOrCreateProgress u =>
    simp only [isSuccessfulCompletion, stepAt, Bool.false_eq_true, if_false, Nat.add_zero]
    by_cases hu : u = userID
    · subst hu
      rcases GetOrCreateProgress_stored (atInstant db now) u with ⟨_, hsame⟩ | ⟨hnone, hst⟩
      · exact dayInvariant_of_progress_eq db _ u _ k (by rw [hsame]; rfl) hJ
      · have hk : k = 0 := by
          by_contra hk
          obtain ⟨p, hp1, _⟩ := hJ.2 (by omega)
          rw [atInstant_db] at hnone
          rw [hnone] at hp1
          cases hp1
        subst hk
        have hzero : (GetOrCreateProgress (atInstant db now) u).1.CompletedCount = 0 := by
          rcases GetOrCreateProgress_cases (atInstant db now) u with hsome | hnew
          · rw [hnone] at hsome
            cases hsome
          · exact hnew.2
        refine ⟨?_, fun h => absurd h (by omega)⟩
        intro p hp
        rw [hst] at hp
        cases hp
        simp [storedProgress, hzero]
    · exact dayInvariant_of_progress_eq db _ userID _ k
        (GetOrCreateProgress_frame (atInstant db now) u userID hu) hJ
  | checkAndResetDaily u =>
    simp only [isSuccessfulCompletion, stepAt, Bool.false_eq_true, if_false, Nat.add_zero]
    by_cases hu : u = userID
    · subst hu
      exact dayInvariant_reset_check db now u k hJ
    · exact dayInvariant_of_progress_eq db _ userID _ k
        (CheckAndResetDaily_frame (atInstant db now) u userID hu) hJ
  | completeTask u taskID =>
    by_cases hu : u = userID
    · subst hu
      obtain ⟨l, hl, hlq, hln, hlc⟩ := loadedProgress_atInstant db now u
      have hJ2 := dayInvariant_reset_check db now u k hJ
      cases herr : (CompleteTask (atInstant db now) u taskID).1.err with
      | some e =>
        have hdb := (CompleteTask_err_db (atInstant db now) u taskID
          (by rw [herr]; exact Option.some_ne_none e)).1
        rw [hl] at hdb
        simp only [isSuccessfulCompletion, stepAt, herr, Option.isNone_some, Bool.and_false,
          Bool.false_eq_true, if_false, Nat.add_zero, hdb]
        exact hJ2
      | none =>
        obtain ⟨q, hq1, hq2, hq3⟩ := CompleteTask_success_atInstant db now u taskID herr
        rw [hl] at hq2
        simp only [] at hq2
        have hk := hJ2.1 l hlq
        simp only [isSuccessfulCompletion, stepAt, herr, Option.isNone_none, Bool.and_true,
          decide_True, if_true]
        refine ⟨?_, fun _ => ⟨q, hq1, hq3⟩⟩
        intro p hp
        rw [hq1] at hp
        cases hp
        push_cast
        omega
    · have : isSuccessfulCompletion db userID now (Call.completeTask u taskID) = false := by
        simp [isSuccessfulCompletion, hu]
      simp only [this, Bool.false_eq_true, if_false, Nat.add_zero, stepAt]
      exact dayInvariant_of_progress_eq db _ userID _ k
        (CompleteTask_frame (atInstant db now) u taskID userID hu) hJ

theorem dayInvariant_run (userID : String) (day : Int) :
    ∀ (calls : List (Int × Call)) (db : DB) (k : Nat),
      dayInvariant db userID day k →
      (∀ c ∈ calls, startOfDay c.1 = day) →
      dayInvariant (runCalls db calls) userID day (k + successfulCompletions db userID calls) := by
  intro calls
  induction calls with
  | nil =>
    intro db k hJ _
    simpa [runCalls, successfulCompletions] using hJ
  | cons c rest ih =>
    intro db k hJ hday
    have hc : startOfDay c.1 = day := hday c (List.mem_cons_self _ _)
    subst hc
    have h1 := dayInvariant_step db c.1 userID k c.2 hJ
    have h2 := ih (stepAt db c.1 c.2) _ h1 (fun c2 hc2 => hday c2 (List.mem_cons_of_mem _ hc2))
    have hrun : runCalls db (c :: rest) = runCalls (stepAt db c.1 c.2) rest := by
      simp [runCalls]
    rw [hrun]
    simp only [successfulCompletions]
    rw [← Nat.add_assoc]
    exact h2

theorem createFiveTasks_eq (w : World) (userID : String) (today tomorrow : Int) :
    createFiveTasks w userID today tomorrow =
      ([freshTask w.db.nextID userID 1 (w.clock 0) tomorrow,
        freshTask (w.db.nextID + 1) userID 2 (w.clock 1) tomorrow,
        freshTask (w.db.nextID + 2) userID 3 (w.clock 2) tomorrow,
        freshTask (w.db.nextID + 3) userID 4 (w.clock 3) tomorrow,
        freshTask (w.db.nextID + 4) userID 5 (w.clock 4) tomorrow],
       { db := { daily_tasks := w.db.daily_tasks ++
                   [freshTask w.db.nextID userID 1 (bsonDateTime (w.clock 0))
                      (bsonDateTime tomorrow),
                    freshTask (w.db.nextID + 1) userID 2 (bsonDateTime (w.clock 1))
                      (bsonDateTime tomorrow),
                    freshTask (w.db.nextID + 2) userID 3 (bsonDateTime (w.clock 2))
                      (bsonDateTime tomorrow),
                    freshTask (w.db.nextID + 3) userID 4 (bsonDateTime (w.clock 3))
                      (bsonDateTime tomorrow),
                    freshTask (w.db.nextID + 4) userID 5 (bsonDateTime (w.clock 4))
                      (bsonDateTime tomorrow)],
                 daily_task_progress := w.db.daily_task_progress,
                 nextID := w.db.nextID + 5 },
         clock := fun k => w.clock (k + 5) }) := by
  simp [createFiveTasks, createTaskStep, timeNow, insertTask, freshTask, storedTask,
    Nat.add_assoc]

theorem CheckAndResetDaily_reset (db : DB) (now : Int) (userID : String)
    (p : DailyTaskProgress) (hp : progressOf db userID = some p) (hpast : p.NextResetAt < now) :
    (CheckAndResetDaily (atInstant db now) userID).db =
      { daily_tasks :=
          deleteMany (fun t => t.UserID == userID && decide (t.ResetAt < startOfDay now))
            db.daily_tasks ++
          [freshTask db.nextID userID 1 (bsonDateTime now) (AddDate (startOfDay now) 1),
           freshTask (db.nextID + 1) userID 2 (bsonDateTime now) (AddDate (startOfDay now) 1),
           freshTask (db.nextID + 2) userID 3 (bsonDateTime now) (AddDate (startOfDay now) 1),
           freshTask (db.nextID + 3) userID 4 (bsonDateTime now) (AddDate (startOfDay now) 1),
           freshTask (db.nextID + 4) userID 5 (bsonDateTime now) (AddDate (startOfDay now) 1)],
        daily_task_progress :=
          updateOne (fun q => q.UserID == userID) (fun q => resetProgress q now)
            db.daily_task_progress,
        nextID := db.nextID + 5 } := by
  unfold CheckAndResetDaily
  simp only [GetOrCreateProgress_atInstant_some db now userID p hp, timeNow_atInstant,
    getTodayMidnight_atInstant, Before, hpast, decide_True, if_true, createFiveTasks_eq,
    bsonDateTime_tomorrow]
  rfl





theorem filter_updateOne_other {α : Type} (p q : α → Bool) (f : α → α)
    (hq : ∀ x, p x = true → q x = false ∧ q (f x) = false) (l : List α) :
    (updateOne p f l).filter q = l.filter q := by
  induction l with
  | nil => simp [updateOne]
  | cons x xs ih =>
    by_cases hx : p x = true
    · simp [updateOne, hx, (hq x hx).1, (hq x hx).2]
    · by_cases hqx : q x = true
      · simp [updateOne, hx, hqx, ih]
      · simp [updateOne, hx, hqx, ih]

theorem filter_deleteMany_other {α : Type} (d q : α → Bool)
    (hq : ∀ x, d x = true → q x = false) (l : List α) :
    (deleteMany d l).filter q = l.filter q := by
  induction l with
  | nil => simp [deleteMany]
  | cons x xs ih =>
    unfold deleteMany at ih ⊢
    by_cases hx : d x = true
    · simp [hx, hq x hx, ih]
    · by_cases hqx : q x = true
      · simp [hx, hqx, ih]
      · simp [hx, hqx, ih]

theorem forall_mem_updateOne {α : Type} (P : α → Prop) (p : α → Bool) (f : α → α)
    (l : List α) (h : ∀ x ∈ l, P x) (hf : ∀ x ∈ l, P (f x)) :
    ∀ x ∈ updateOne p f l, P x := by
  induction l with
  | nil => simp [updateOne]
  | cons y ys ih =>
    intro x hx
    unfold updateOne at hx
    split at hx
    · rcases List.mem_cons.1 hx with h1 | h1
      · rw [h1]
        exact hf y (List.mem_cons_self _ _)
      · exact h x (List.mem_cons_of_mem _ h1)
    · rcases List.mem_cons.1 hx with h1 | h1
      · rw [h1]
        exact h y (List.mem_cons_self _ _)
      · exact ih (fun z hz => h z (List.mem_cons_of_mem _ hz))
          (fun z hz => hf z (List.mem_cons_of_mem _ hz)) x h1

theorem GetOrCreateProgress_progress_cases (db : DB) (now : Int) (userID : String) :
    (GetOrCreateProgress (atInstant db now) userID).2.db.daily_task_progress
        = db.daily_task_progress ∨
    (GetOrCreateProgress (atInstant db now) userID).2.db.daily_task_progress
        = db.daily_task_progress ++ [freshProgress db.nextID userID now] := by
  unfold GetOrCreateProgress
  simp only [getTodayMidnight_atInstant, timeNow_atInstant]
  split
  · exact Or.inl rfl
  · refine Or.inr ?_
    simp only [insertProgress, storedProgress, freshProgress, bsonDateTime_tomorrow,
      Option.map_none', atInstant_db]

theorem CheckAndResetDaily_progress_cases (db : DB) (now : Int) (userID : String) :
    (CheckAndResetDaily (atInstant db now) userID).db.daily_task_progress
        = (GetOrCreateProgress (atInstant db now) userID).2.db.daily_task_progress ∨
    (CheckAndResetDaily (atInstant db now) userID).db.daily_task_progress
        = updateOne (fun q => q.UserID == userID) (fun q => resetProgress q now)
            (GetOrCreateProgress (atInstant db now) userID).2.db.daily_task_progress := by
  unfold CheckAndResetDaily
  simp only []
  rw [GetOrCreateProgress_atInstant]
  simp only [getTodayMidnight_atInstant, timeNow_atInstant]
  split
  · refine Or.inr ?_
    simp only [bsonDateTime_tomorrow]
    rfl
  · exact Or.inl rfl

theorem progress_forall_GetOrCreateProgress (P : DailyTaskProgress → Prop) (db : DB) (now : Int)
    (userID : String) (hfresh : ∀ id u, P (freshProgress id u now))
    (h : ∀ p ∈ db.daily_task_progress, P p) :
    ∀ p ∈ (GetOrCreateProgress (atInstant db now) userID).2.db.daily_task_progress, P p := by
  rcases GetOrCreateProgress_progress_cases db now userID with h1 | h1
  · rw [h1]
    exact h
  · rw [h1]
    intro p hp
    rcases List.mem_append.1 hp with h2 | h2
    · exact h p h2
    · rw [List.mem_singleton.1 h2]
      exact hfresh _ _

theorem progress_forall_CheckAndResetDaily (P : DailyTaskProgress → Prop) (db : DB) (now : Int)
    (userID : String) (hfresh : ∀ id u, P (freshProgress id u now))
    (hreset : ∀ p, P p → P (resetProgress p now))
    (h : ∀ p ∈ db.daily_task_progress, P p) :
    ∀ p ∈ (CheckAndResetDaily (atInstant db now) userID).db.daily_task_progress, P p := by
  have hg := progress_forall_GetOrCreateProgress P db now userID hfresh h
  rcases CheckAndResetDaily_progress_cases db now userID with h1 | h1
  · rw [h1]
    exact hg
  · rw [h1]
    exact forall_mem_updateOne P _ _ _ hg (fun x hx => hreset x (hg x hx))

theorem progress_forall_CompleteTask (P : DailyTaskProgress → Prop) (db : DB) (now : Int)
    (userID taskID : String) (hfresh : ∀ id u, P (freshProgress id u now))
    (hreset : ∀ p, P p → P (resetProgress p now))
    (hsucc : ∀ p l, P p → P l → l.CompletedCount < 5 → P (successProgress p l now))
    (h : ∀ p ∈ db.daily_task_progress, P p) :
    ∀ p ∈ (CompleteTask (atInstant db now) userID taskID).2.db.daily_task_progress, P p := by
  have hc := progress_forall_CheckAndResetDaily P db now userID hfresh hreset h
  obtain ⟨l, hl, hlq, _, _⟩ := loadedProgress_atInstant db now userID
  have hlmem : l ∈ (CheckAndResetDaily (atInstant db now) userID).db.daily_task_progress :=
    List.mem_of_find?_eq_some hlq
  cases herr : (CompleteTask (atInstant db now) userID taskID).1.err with
  | some e =>
    have hdb := (CompleteTask_err_db (atInstant db now) userID taskID
      (by rw [herr]; exact Option.some_ne_none e)).1
    rw [hdb, hl]
    exact hc
  | none =>
    obtain ⟨objID, found, hlt, _, _, _, heq⟩ := CompleteTask_success _ userID taskID herr
    rw [heq]
    rw [hl] at hlt ⊢
    simp only [] at hlt ⊢
    exact forall_mem_updateOne P _ _ _ hc (fun x hx => hsucc x l (hc x hx) (hc l hlmem) hlt)

theorem progress_forall_stepAt (P : DailyTaskProgress → Prop) (db : DB) (now : Int) (c : Call)
    (hfresh : ∀ id u, P (freshProgress id u now))
    (hreset : ∀ p, P p → P (resetProgress p now))
    (hsucc : ∀ p l, P p → P l → l.CompletedCount < 5 → P (successProgress p l now))
    (h : ∀ p ∈ db.daily_task_progress, P p) :
    ∀ p ∈ (stepAt db now c).daily_task_progress, P p := by
  cases c with
  | getOrCreateDailyTasks u =>
    simp only [stepAt]
    rw [GetOrCreateDailyTasks_progress]
    exact h
  | getOrCreateProgress u => exact progress_forall_GetOrCreateProgress P db now u hfresh h
  | checkAndResetDaily u => exact progress_forall_CheckAndResetDaily P db now u hfresh hreset h
  | completeTask u t => exact progress_forall_CompleteTask P db now u t hfresh hreset hsucc h





theorem progress_forall_runCalls (P : DailyTaskProgress → Prop)
    (hfresh : ∀ id u now, P (freshProgress id u now))
    (hreset : ∀ p now, P p → P (resetProgress p now))
    (hsucc : ∀ p l now, P p → P l → l.CompletedCount < 5 → P (successProgress p l now)) :
    ∀ (calls : List (Int × Call)) (db : DB), (∀ p ∈ db.daily_task_progress, P p) →
      ∀ p ∈ (runCalls db calls).daily_task_progress, P p := by
  intro calls
  induction calls with
  | nil =>
    intro db h
    exact h
  | cons c rest ih =>
    intro db h
    have hrun : runCalls db (c :: rest) = runCalls (stepAt db c.1 c.2) rest := by
      simp [runCalls]
    rw [hrun]
    exact ih _ (progress_forall_stepAt P db c.1 c.2 (fun id u => hfresh id u c.1)
      (fun p => hreset p c.1) (fun p l => hsucc p l c.1) h)

theorem resetBound_mono (T T2 : Int) (h : T ≤ T2) (p : DailyTaskProgress)
    (hp : resetBound T p) : resetBound T2 p := by
  unfold resetBound AddDate startOfDay Day Second at *
  omega

theorem resetBound_next (now : Int) (p : DailyTaskProgress)
    (h : p.NextResetAt = AddDate (startOfDay now) 1) : resetBound now p := by
  unfold resetBound
  rw [h]
  unfold AddDate startOfDay Day Second
  omega

theorem resetBound_stepAt (db : DB) (now : Int) (c : Call)
    (h : ∀ p ∈ db.daily_task_progress, resetBound now p) :
    ∀ p ∈ (stepAt db now c).daily_task_progress, resetBound now p :=
  progress_forall_stepAt (resetBound now) db now c
    (fun _ _ => resetBound_next now _ rfl) (fun _ _ => resetBound_next now _ rfl)
    (fun _ _ _ _ _ => resetBound_next now _ rfl) h

theorem resetBound_runCalls :
    ∀ (calls : List (Int × Call)) (db : DB) (T now : Int),
      (∀ p ∈ db.daily_task_progress, resetBound T p) →
      (∀ c ∈ calls, T ≤ c.1) →
      calls.Pairwise (fun a b => a.1 ≤ b.1) →
      (∀ c ∈ calls, c.1 ≤ now) → T ≤ now →
      ∀ p ∈ (runCalls db calls).daily_task_progress, resetBound now p := by
  intro calls
  induction calls with
  | nil =>
    intro db T now h _ _ _ hT p hp
    exact resetBound_mono T now hT p (h p hp)
  | cons c rest ih =>
    intro db T now h hT hord hnow hTnow
    have hrun : runCalls db (c :: rest) = runCalls (stepAt db c.1 c.2) rest := by
      simp [runCalls]
    rw [hrun]
    have hc : T ≤ c.1 := hT c (List.mem_cons_self _ _)
    have hord2 := List.pairwise_cons.1 hord
    refine ih (stepAt db c.1 c.2) c.1 now ?_ hord2.1 hord2.2
      (fun c2 hc2 => hnow c2 (List.mem_cons_of_mem _ hc2)) (hnow c (List.mem_cons_self _ _))
    exact resetBound_stepAt db c.1 c.2 (fun p hp => resetBound_mono T c.1 hc p (h p hp))

theorem resetBound_reachable (calls : List (Int × Call)) (now : Int)
    (hord : calls.Pairwise (fun a b => a.1 ≤ b.1)) (hnow : ∀ c ∈ calls, c.1 ≤ now) :
    ∀ p ∈ (runCalls emptyDB calls).daily_task_progress, resetBound now p := by
  cases calls with
  | nil =>
    intro p hp
    simp [runCalls, emptyDB] at hp
  | cons c rest =>
    refine resetBound_runCalls (c :: rest) emptyDB c.1 now ?_ ?_ hord hnow
      (hnow c (List.mem_cons_self _ _))
    · intro p hp
      simp [emptyDB] at hp
    · intro c2 hc2
      rcases List.mem_cons.1 hc2 with h1 | h1
      · rw [h1]
      · exact (List.pairwise_cons.1 hord).1 c2 h1

theorem CheckAndResetDaily_create (db : DB) (now : Int) (userID : String)
    (h : progressOf db userID = none) :
    CheckAndResetDaily (atInstant db now) userID =
      atInstant { db with
        daily_task_progress := db.daily_task_progress ++ [freshProgress db.nextID userID now],
        nextID := db.nextID + 1 } now := by
  have hf : List.find? (fun p => p.UserID == userID) db.daily_task_progress = none := h
  have hnow := lt_startOfDay_add now
  have hnb : ¬ AddDate (startOfDay now) 1 < now := by omega
  unfold CheckAndResetDaily GetOrCreateProgress
  simp [atInstant, getTodayMidnight, timeNow, findOne, hf, insertProgress, Before, hnb,
    freshProgress, storedProgress, bsonDateTime_tomorrow]

theorem filter_eq_nil_of_find?_none {α : Type} (p : α → Bool) (l : List α)
    (h : l.find? p = none) : l.filter p = [] := by
  rw [List.filter_eq_nil_iff]
  intro x hx hpx
  exact absurd hpx (by simpa using List.find?_eq_none.1 h x hx)

theorem GetOrCreateDailyTasks_create (db : DB) (now : Int) (userID : String)
    (h : ∀ t ∈ db.daily_tasks, t.UserID ≠ userID) :
    GetOrCreateDailyTasks (atInstant db now) userID =
      ([freshTask db.nextID userID 1 now (AddDate (startOfDay now) 1),
        freshTask (db.nextID + 1) userID 2 now (AddDate (startOfDay now) 1),
        freshTask (db.nextID + 2) userID 3 now (AddDate (startOfDay now) 1),
        freshTask (db.nextID + 3) userID 4 now (AddDate (startOfDay now) 1),
        freshTask (db.nextID + 4) userID 5 now (AddDate (startOfDay now) 1)],
       atInstant { db with
         daily_tasks := db.daily_tasks ++
           [freshTask db.nextID userID 1 (bsonDateTime now) (AddDate (startOfDay now) 1),
            freshTask (db.nextID + 1) userID 2 (bsonDateTime now) (AddDate (startOfDay now) 1),
            freshTask (db.nextID + 2) userID 3 (bsonDateTime now) (AddDate (startOfDay now) 1),
            freshTask (db.nextID + 3) userID 4 (bsonDateTime now) (AddDate (startOfDay now) 1),
            freshTask (db.nextID + 4) userID 5 (bsonDateTime now) (AddDate (startOfDay now) 1)],
         nextID := db.nextID + 5 } now) := by
  have hlookup : ∀ (a b : Int), db.daily_tasks.filter
      (fun t => t.UserID == userID && decide (a ≤ t.ResetAt) && decide (t.ResetAt < b)) = [] := by
    intro a b
    rw [List.filter_eq_nil_iff]
    intro t ht
    simp [h t ht]
  unfold GetOrCreateDailyTasks
  simp only [getTodayMidnight_atInstant, atInstant_db, hlookup, sortByTaskNumber, List.foldl_nil,
    List.length_nil, if_true, createFiveTasks_eq, bsonDateTime_tomorrow]
  rfl

theorem GetOrCreateProgress_none (w : World) (userID : String)
    (h : progressOf w.db userID = none) :
    GetOrCreateProgress w userID =
      ({ ID := w.db.nextID, UserID := userID, CompletedCount := 0, LastCompletedAt := none,
         LastCooldownEnd := none, NextResetAt := AddDate (startOfDay (w.clock 0)) 1,
         CreatedAt := w.clock 1, UpdatedAt := w.clock 2 },
       { db := { w.db with
           daily_task_progress := w.db.daily_task_progress ++
             [{ ID := w.db.nextID, UserID := userID, CompletedCount := 0, LastCompletedAt := none,
                LastCooldownEnd := none, NextResetAt := AddDate (startOfDay (w.clock 0)) 1,
                CreatedAt := bsonDateTime (w.clock 1), UpdatedAt := bsonDateTime (w.clock 2) }],
           nextID := w.db.nextID + 1 },
         clock := fun k => w.clock (k + 3) }) := by
  have hf : List.find? (fun p => p.UserID == userID) w.db.daily_task_progress = none := h
  unfold GetOrCreateProgress
  simp [getTodayMidnight, timeNow, findOne, hf, insertProgress, storedProgress,
    bsonDateTime_tomorrow]

theorem ObjectIDFromHex_empty : ObjectIDFromHex "" = none := by decide

theorem CompleteTaskDaily_error (w : World) (users : List User) (userID taskID e : String)
    (hid : taskID ≠ "") (h : (CompleteTask w userID taskID).1.err = some e) :
    (CompleteTaskDaily w users userID taskID).1 = CompleteTaskResponse.serverError e e := by
  have hne : (taskID == "") = false := by simpa using hid
  unfold CompleteTaskDaily
  simp only [hne, Bool.false_eq_true, if_false, h]

theorem assignRanks_length (i : Int) (l : List LeaderboardUser) :
    (assignRanks i l).length = l.length := by
  induction l generalizing i with
  | nil => rfl
  | cons u rest ih => simp [assignRanks, ih]

theorem assignRanks_rank (i : Int) (l : List LeaderboardUser) (k : Nat) (u : LeaderboardUser)
    (h : (assignRanks i l)[k]? = some u) : u.Rank = i + k + 1 := by
  induction l generalizing i k with
  | nil => simp [assignRanks] at h
  | cons v rest ih =>
    cases k with
    | zero =>
      simp [assignRanks] at h
      subst h
      simp
    | succ k =>
      simp [assignRanks] at h
      have := ih (i + 1) k h
      rw [this]
      push_cast
      omega

theorem GetLeaderboard_limit_rank (reading : SortReading) (users : List User) (limit : Int)
    (l : List LeaderboardUser) (h : (GetLeaderboard reading users limit).1 = some l) :
    (l.length : Int) ≤ effectiveLimit limit ∧
    ∀ (k : Nat) (u : LeaderboardUser), l[k]? = some u → u.Rank = k + 1 := by
  have hlim : (if (if limit ≤ 0 then 10 else limit) > 100 then 100
      else if limit ≤ 0 then (10 : Int) else limit) = effectiveLimit limit := by
    unfold effectiveLimit
    split_ifs <;> omega
  have hpos : 0 ≤ effectiveLimit limit := by
    unfold effectiveLimit
    split_ifs <;> omega
  cases reading with
  | rejected => simp [GetLeaderboard] at h
  | pointsThenUsername =>
    simp only [GetLeaderboard, hlim, Option.some.injEq] at h
    subst h
    refine ⟨?_, ?_⟩
    · rw [assignRanks_length, List.length_map, List.length_take]
      have := Int.toNat_of_nonneg hpos
      omega
    · intro k u hk
      have := assignRanks_rank 0 _ k u hk
      omega
  | usernameThenPoints =>
    simp only [GetLeaderboard, hlim, Option.some.injEq] at h
    subst h
    refine ⟨?_, ?_⟩
    · rw [assignRanks_length, List.length_map, List.length_take]
      have := Int.toNat_of_nonneg hpos
      omega
    · intro k u hk
      have := assignRanks_rank 0 _ k u hk
      omega

theorem stringBefore_asymm (a b : List Char) (h : stringBefore a b = true) :
    stringBefore b a = false := by
  induction a generalizing b with
  | nil => cases b <;> simp [stringBefore] at h ⊢
  | cons x xs ih =>
    cases b with
    | nil => simp [stringBefore] at h
    | cons y ys =>
      simp only [stringBefore] at h ⊢
      by_cases h1 : x.toNat < y.toNat
      · have h2 : ¬ y.toNat < x.toNat := by omega
        simp [h1, h2]
      · by_cases h2 : y.toNat < x.toNat
        · simp [h1, h2] at h
        · simp only [h1, h2, if_false] at h ⊢
          exact ih ys h

theorem stringBefore_le_trans (a b c : List Char) (hab : stringBefore b a = false)
    (hbc : stringBefore c b = false) : stringBefore c a = false := by
  induction a generalizing b c with
  | nil =>
    cases b with
    | nil => exact hbc
    | cons y ys => cases c <;> simp [stringBefore] at hab hbc ⊢
  | cons x xs ih =>
    cases b with
    | nil =>
      cases c with
      | nil => simp [stringBefore] at hab
      | cons z zs => simp [stringBefore] at hab
    | cons y ys =>
      cases c with
      | nil => simp [stringBefore] at hbc
      | cons z zs =>
        simp only [stringBefore] at hab hbc ⊢
        by_cases h1 : y.toNat < x.toNat
        · simp [h1] at hab
        · by_cases h2 : x.toNat < y.toNat
          · by_cases h3 : z.toNat < y.toNat
            · simp [h3] at hbc
            · have h4 : ¬ z.toNat < x.toNat := by omega
              have h5 : x.toNat < z.toNat := by omega
              simp [h4, h5]
          · simp only [h1, h2, if_false] at hab
            by_cases h3 : z.toNat < y.toNat
            · simp [h3] at hbc
            · by_cases h4 : y.toNat < z.toNat
              · have h5 : ¬ z.toNat < x.toNat := by omega
                have h6 : x.toNat < z.toNat := by omega
                simp [h5, h6]
              · simp only [h3, h4, if_false] at hbc
                have h5 : ¬ z.toNat < x.toNat := by omega
                have h6 : ¬ x.toNat < z.toNat := by omega
                simp only [h5, h6, if_false]
                exact ih ys zs hab hbc

theorem mem_insertSorted {α : Type} (before : α → α → Bool) (x w : α) (l : List α) :
    w ∈ insertSorted before x l ↔ w = x ∨ w ∈ l := by
  induction l with
  | nil => simp [insertSorted]
  | cons y ys ih =>
    simp only [insertSorted]
    split_ifs
    · simp
    · simp only [List.mem_cons, ih]
      tauto

theorem pairwise_insertSorted {α : Type} (before : α → α → Bool)
    (htrans : ∀ a b c, before b a = false → before c b = false → before c a = false)
    (hasymm : ∀ a b, before a b = true → before b a = false)
    (x : α) (l : List α) (h : l.Pairwise (fun a b => before b a = false)) :
    (insertSorted before x l).Pairwise (fun a b => before b a = false) := by
  induction l with
  | nil => simp [insertSorted]
  | cons y ys ih =>
    rw [List.pairwise_cons] at h
    simp only [insertSorted]
    by_cases hxy : before x y = true
    · simp only [hxy, if_true]
      refine List.Pairwise.cons ?_ (List.Pairwise.cons h.1 h.2)
      intro w hw
      rcases List.mem_cons.1 hw with hw | hw
      · subst hw
        exact hasymm _ _ hxy
      · exact htrans x y w (hasymm _ _ hxy) (h.1 w hw)
    · simp only [hxy, Bool.false_eq_true, if_false]
      refine List.Pairwise.cons ?_ (ih h.2)
      intro w hw
      rcases (mem_insertSorted before x w ys).1 hw with hw | hw
      · subst hw
        simpa using hxy
      · exact h.1 w hw

theorem pairwise_sortDocuments {α : Type} (before : α → α → Bool)
    (htrans : ∀ a b c, before b a = false → before c b = false → before c a = false)
    (hasymm : ∀ a b, before a b = true → before b a = false) (l : List α) :
    (sortDocuments before l).Pairwise (fun a b => before b a = false) := by
  have key : ∀ (l acc : List α), acc.Pairwise (fun a b => before b a = false) →
      (l.foldl (fun acc x => insertSorted before x acc) acc).Pairwise
        (fun a b => before b a = false) := by
    intro l
    induction l with
    | nil => intro acc h; exact h
    | cons x xs ih =>
      intro acc h
      exact ih _ (pairwise_insertSorted before htrans hasymm x acc h)
  exact key l [] List.Pairwise.nil

theorem sortsBefore_points_asymm (a b : User)
    (h : sortsBefore SortReading.pointsThenUsername a b = true) :
    sortsBefore SortReading.pointsThenUsername b a = false := by
  simp only [sortsBefore, Bool.or_eq_true, Bool.and_eq_true, decide_eq_true_eq, beq_iff_eq,
    Bool.or_eq_false_iff, Bool.and_eq_false_iff, decide_eq_false_iff_not] at h ⊢
  rcases h with h | ⟨h1, h2⟩
  · exact ⟨by omega, Or.inl (by simp; omega)⟩
  · exact ⟨by omega, Or.inr (stringBefore_asymm _ _ h2)⟩

theorem sortsBefore_points_trans (a b c : User)
    (hab : sortsBefore SortReading.pointsThenUsername b a = false)
    (hbc : sortsBefore SortReading.pointsThenUsername c b = false) :
    sortsBefore SortReading.pointsThenUsername c a = false := by
  simp only [sortsBefore, Bool.or_eq_false_iff, Bool.and_eq_false_iff,
    decide_eq_false_iff_not, beq_eq_false_iff_ne, ne_eq] at hab hbc ⊢
  obtain ⟨h1, h2⟩ := hab
  obtain ⟨h3, h4⟩ := hbc
  refine ⟨by omega, ?_⟩
  by_cases hca : c.Points = a.Points
  · right
    have hba : b.Points = a.Points := by omega
    have hcb : c.Points = b.Points := by omega
    rcases h2 with h2 | h2
    · exact absurd hba h2
    · rcases h4 with h4 | h4
      · exact absurd hcb h4
      · exact stringBefore_le_trans _ _ _ h2 h4
  · left
    exact hca

theorem pairwise_assignRanks (i : Int) (l : List LeaderboardUser)
    (h : l.Pairwise rankedNoLaterThan) : (assignRanks i l).Pairwise rankedNoLaterThan := by
  have hmem : ∀ (l : List LeaderboardUser) (i : Int) (w : LeaderboardUser),
      w ∈ assignRanks i l → ∃ v ∈ l, w.Points = v.Points ∧ w.Username = v.Username := by
    intro l
    induction l with
    | nil => intro i w hw; simp [assignRanks] at hw
    | cons u rest ih =>
      intro i w hw
      simp only [assignRanks, List.mem_cons] at hw
      rcases hw with hw | hw
      · exact ⟨u, List.mem_cons_self _ _, by rw [hw], by rw [hw]⟩
      · obtain ⟨v, hv, h1, h2⟩ := ih (i + 1) w hw
        exact ⟨v, List.mem_cons_of_mem _ hv, h1, h2⟩
  induction l generalizing i with
  | nil => simp [assignRanks]
  | cons u rest ih =>
    rw [List.pairwise_cons] at h
    simp only [assignRanks]
    refine List.Pairwise.cons ?_ (ih (i + 1) h.2)
    intro w hw
    obtain ⟨v, hv, h1, h2⟩ := hmem rest (i + 1) w hw
    have := h.1 v hv
    unfold rankedNoLaterThan at this ⊢
    simp only [h1, h2]
    exact this

theorem GetLeaderboard_pointsFirst_ordered (users : List User) (limit : Int)
    (l : List LeaderboardUser)
    (h : (GetLeaderboard SortReading.pointsThenUsername users limit).1 = some l) :
    l.Pairwise rankedNoLaterThan := by
  simp only [GetLeaderboard, Option.some.injEq] at h
  subst h
  apply pairwise_assignRanks
  rw [List.pairwise_map]
  refine List.Pairwise.sublist (List.take_sublist _ _) ?_
  refine List.Pairwise.imp ?_ (pairwise_sortDocuments _ sortsBefore_points_trans
    sortsBefore_points_asymm users)
  intro a b hab
  simp only [sortsBefore, Bool.or_eq_false_iff, Bool.and_eq_false_iff,
    decide_eq_false_iff_not, beq_eq_false_iff_ne, ne_eq] at hab
  unfold rankedNoLaterThan
  simp only []
  by_cases hp : a.Points = b.Points
  · right
    refine ⟨hp, ?_⟩
    rcases hab.2 with h2 | h2
    · exact absurd hp.symm h2
    · exact h2
  · left
    omega

theorem mem_insertByTaskNumber (t w : DailyTask) (l : List DailyTask) :
    w ∈ insertByTaskNumber t l ↔ w = t ∨ w ∈ l := by
  induction l with
  | nil => simp [insertByTaskNumber]
  | cons y ys ih =>
    simp only [insertByTaskNumber]
    split_ifs
    · simp
    · simp only [List.mem_cons, ih]
      tauto

theorem mem_sortByTaskNumber (w : DailyTask) (l : List DailyTask) :
    w ∈ sortByTaskNumber l ↔ w ∈ l := by
  have key : ∀ (l acc : List DailyTask),
      w ∈ l.foldl (fun acc t => insertByTaskNumber t acc) acc ↔ w ∈ l ∨ w ∈ acc := by
    intro l
    induction l with
    | nil => intro acc; simp
    | cons x xs ih =>
      intro acc
      simp only [List.foldl_cons, ih, mem_insertByTaskNumber, List.mem_cons]
      tauto
  simpa [sortByTaskNumber] using key l []

theorem GetOrCreateDailyTasks_find (db : DB) (now : Int) (userID : String) :
    GetOrCreateDailyTasks (atInstant db now) userID =
      if (dailyTasksFind db userID now).length = 0 then
        createFiveTasks (atInstant db now) userID (startOfDay now) (AddDate (startOfDay now) 1)
      else (dailyTasksFind db userID now, atInstant db now) := rfl

theorem dailyTasksFind_excludes_today (db : DB) (userID : String) (now : Int) (t : DailyTask)
    (h : t ∈ dailyTasksFind db userID now) : t.ResetAt ≠ AddDate (startOfDay now) 1 := by
  unfold dailyTasksFind at h
  rw [mem_sortByTaskNumber, List.mem_filter] at h
  simp only [Bool.and_eq_true, decide_eq_true_eq] at h
  omega

theorem GetOrCreateProgress_reads (userID : String) :
    ReadsAtMost 3 (fun w => GetOrCreateProgress w userID) := by
  intro w1 w2 hdb h
  rcases w1 with ⟨db1, c1⟩
  rcases w2 with ⟨db2, c2⟩
  simp only at hdb h
  subst hdb
  have e0 := h 0 (by omega)
  have e1 := h 1 (by omega)
  have e2 := h 2 (by omega)
  simp only [GetOrCreateProgress, getTodayMidnight, timeNow]
  cases hf : findOne (fun p => p.UserID == userID) db1.daily_task_progress with
  | some p => exact ⟨rfl, rfl, 1, by omega, fun k => rfl, fun k => rfl⟩
  | none =>
    simp only [insertProgress, Nat.zero_add, e0, e1, e2]
    exact ⟨trivial, trivial, 3, by omega, fun k => rfl, fun k => rfl⟩

theorem CheckAndResetDaily_reads (userID : String) :
    ReadsAtMost 10 (fun w => ((), CheckAndResetDaily w userID)) := by
  intro w1 w2 hdb h
  obtain ⟨hp, hgdb, j, hj, hc1, hc2⟩ :=
    GetOrCreateProgress_reads userID w1 w2 hdb (fun k hk => h k (by omega))
  simp only at hp hgdb hc1 hc2 ⊢
  have hcl : ∀ k, k < 7 → (GetOrCreateProgress w1 userID).2.clock k
      = (GetOrCreateProgress w2 userID).2.clock k := by
    intro k hk
    rw [hc1, hc2]
    exact h _ (by omega)
  have e0 := hcl 0 (by omega)
  have e1 := hcl 1 (by omega)
  have e2 := hcl 2 (by omega)
  have e3 := hcl 3 (by omega)
  have e4 := hcl 4 (by omega)
  have e5 := hcl 5 (by omega)
  have e6 := hcl 6 (by omega)
  simp only [CheckAndResetDaily, getTodayMidnight, timeNow, createFiveTasks_eq, Nat.zero_add,
    ← hp, ← hgdb, ← e0, ← e1, ← e2, ← e3, ← e4, ← e5, ← e6]
  by_cases hB : Before (GetOrCreateProgress w1 userID).1.NextResetAt
      ((GetOrCreateProgress w1 userID).2.clock 0) = true
  · simp only [hB, if_true, true_and]
    refine ⟨j + 7, by omega, fun k => ?_, fun k => ?_⟩
    · show (GetOrCreateProgress w1 userID).2.clock (k + 5 + 1 + 1) = _
      rw [hc1]
      congr 1
      omega
    · show (GetOrCreateProgress w2 userID).2.clock (k + 5 + 1 + 1) = _
      rw [hc2]
      congr 1
      omega
  · simp only [hB, Bool.false_eq_true, if_false, true_and]
    refine ⟨j + 2, by omega, fun k => ?_, fun k => ?_⟩
    · show (GetOrCreateProgress w1 userID).2.clock (k + 1 + 1) = _
      rw [hc1]
      congr 1
      omega
    · show (GetOrCreateProgress w2 userID).2.clock (k + 1 + 1) = _
      rw [hc2]
      congr 1
      omega

theorem loadedProgress_reads (userID : String) :
    ReadsAtMost 13 (fun w => loadedProgress w userID) := by
  intro w1 w2 hdb h
  obtain ⟨_, hdb1, j, hj, hc1, hc2⟩ :=
    CheckAndResetDaily_reads userID w1 w2 hdb (fun k hk => h k (by omega))
  simp only at hdb1 hc1 hc2
  obtain ⟨hp, hgdb, i, hi, hd1, hd2⟩ :=
    GetOrCreateProgress_reads userID (CheckAndResetDaily w1 userID)
      (CheckAndResetDaily w2 userID) hdb1
      (fun k hk => by rw [hc1, hc2]; exact h _ (by omega))
  simp only at hp hgdb hd1 hd2
  refine ⟨hp, hgdb, i + j, by omega, fun k => ?_, fun k => ?_⟩
  · show (GetOrCreateProgress (CheckAndResetDaily w1 userID) userID).2.clock k = _
    rw [hd1, hc1]
    congr 1
    omega
  · show (GetOrCreateProgress (CheckAndResetDaily w2 userID) userID).2.clock k = _
    rw [hd2, hc2]
    congr 1
    omega

theorem CompleteTask_reads (userID taskID : String) :
    ReadsAtMost 16 (fun w => CompleteTask w userID taskID) := by
  intro w1 w2 hdb h
  obtain ⟨hp, hgdb, j, hj, hc1, hc2⟩ :=
    loadedProgress_reads userID w1 w2 hdb (fun k hk => h k (by omega))
  simp only [loadedProgress] at hp hgdb hc1 hc2 ⊢
  have hcl : ∀ k, k < 3 →
      (GetOrCreateProgress (CheckAndResetDaily w1 userID) userID).2.clock k
        = (GetOrCreateProgress (CheckAndResetDaily w2 userID) userID).2.clock k := by
    intro k hk
    rw [hc1, hc2]
    exact h _ (by omega)
  have e0 := hcl 0 (by omega)
  have e1 := hcl 1 (by omega)
  have e2 := hcl 2 (by omega)
  simp only [CompleteTask, getTodayMidnight, timeNow, Nat.zero_add, ← hp, ← hgdb, ← e0, ← e1,
    ← e2]
  generalize GetOrCreateProgress (CheckAndResetDaily w1 userID) userID = g1 at hp hgdb hc1 ⊢
  generalize GetOrCreateProgress (CheckAndResetDaily w2 userID) userID = g2 at hp hgdb hc2 ⊢
  have shift1 : ∀ (a : Nat) (k : Nat), g1.2.clock (k + a) = w1.clock (k + (j + a)) := by
    intro a k
    rw [hc1]
    congr 1
    omega
  have shift2 : ∀ (a : Nat) (k : Nat), g2.2.clock (k + a) = w2.clock (k + (j + a)) := by
    intro a k
    rw [hc2]
    congr 1
    omega
  by_cases hlim : g1.1.CompletedCount ≥ 5
  · simp only [hlim, if_true, true_and]
    exact ⟨hgdb, j, by omega, hc1, hc2⟩
  · simp only [hlim, if_false]
    cases hcd : cooldownRejection g1.1 (g1.2.clock 0) with
    | some payload =>
      simp only [true_and]
      exact ⟨j + 1, by omega, shift1 1, shift2 1⟩
    | none =>
      simp only []
      cases hid : ObjectIDFromHex taskID with
      | none =>
        simp only [true_and]
        exact ⟨j + 1, by omega, shift1 1, shift2 1⟩
      | some objID =>
        simp only []
        cases hfound : findOne (fun t => t.ID == objID) g1.2.db.daily_tasks with
        | none =>
          simp only [true_and]
          exact ⟨j + 2, by omega, shift1 2, shift2 2⟩
        | some found =>
          simp only [true_and]
          exact ⟨j + 3, by omega, shift1 3, shift2 3⟩

/-! ## The claims -/

/-- C1 (the code departs from it): from the empty store, a call of
GetOrCreateDailyTasks at 09:00 returns the task ids 1..5, and the next call, at
10:00 of the same day with no write in between, returns the ids 6..10 and inserts
five more tasks. -/
theorem C1_second_call_creates_again :
    startOfDay (nineAM + 60 * Minute) = startOfDay nineAM ∧
    (GetOrCreateDailyTasks (atInstant emptyDB nineAM) "u").1.map (fun t => t.ID)
      = [1, 2, 3, 4, 5] ∧
    (GetOrCreateDailyTasks (atInstant emptyDB nineAM) "u").2.db.daily_tasks.length = 5 ∧
    (GetOrCreateDailyTasks
        (atInstant (GetOrCreateDailyTasks (atInstant emptyDB nineAM) "u").2.db
          (nineAM + 60 * Minute)) "u").1.map
        (fun t => t.ID) = [6, 7, 8, 9, 10] ∧
    (GetOrCreateDailyTasks
        (atInstant (GetOrCreateDailyTasks (atInstant emptyDB nineAM) "u").2.db
          (nineAM + 60 * Minute)) "u").2.db.daily_tasks.length = 10 := by
  decide

/-- C2 (the code departs from it): with nextResetAt equal to today's midnight and
yesterday's tasks still stored, GET tasks/daily at 09:00 returns yesterday's five
tasks (ids 2..6, created yesterday, the first one completed) instead of the five
tasks created by the reset; completedCount is 0. -/
theorem C2_rollover_returns_yesterdays_tasks :
    (progressOf morningAfterStore "u").map (fun p => p.NextResetAt) = some Day ∧
    Before Day (Day + nineAM) = true ∧
    (GetDailyTasks (atInstant morningAfterStore (Day + nineAM)) "u").1.tasks.map
      (fun t => (t.ID, t.TaskNumber, t.Completed, t.CreatedAt, t.ResetAt))
      = [(2, 1, true, nineAM, Day), (3, 2, false, nineAM, Day), (4, 3, false, nineAM, Day),
         (5, 4, false, nineAM, Day), (6, 5, false, nineAM, Day)] ∧
    (GetDailyTasks (atInstant morningAfterStore (Day + nineAM)) "u").1.completedCount = 0 := by
  decide

/-- C3 (the code departs from it): after creating the tasks, completing task 1 at
09:00 and completing the same task again at 09:05, the progress record counts 2
completions while the current task set holds 1 completed task. -/
theorem C3_count_exceeds_completed_tasks :
    (progressOf
      (runCalls emptyDB
        [(nineAM, Call.getOrCreateDailyTasks "u"),
         (nineAM, Call.completeTask "u" "000000000000000000000001"),
         (nineAM + 5 * Minute, Call.completeTask "u" "000000000000000000000001")])
      "u").map (fun p => p.CompletedCount) = some 2 ∧
    completedInCurrentSet
      (runCalls emptyDB
        [(nineAM, Call.getOrCreateDailyTasks "u"),
         (nineAM, Call.completeTask "u" "000000000000000000000001"),
         (nineAM + 5 * Minute, Call.completeTask "u" "000000000000000000000001")])
      "u" (nineAM + 5 * Minute) = 1 := by
  decide

/-- C4 (the code departs from it): after two GetOrCreateDailyTasks calls from the
empty store the user has ten stored tasks with the same reset boundary, and every
task number 1..5 occurs twice. -/
theorem C4_duplicate_task_set :
    (taskSet
      (runCalls emptyDB
        [(nineAM, Call.getOrCreateDailyTasks "u"), (nineAM, Call.getOrCreateDailyTasks "u")])
      "u" Day).map (fun t => t.TaskNumber) = [1, 2, 3, 4, 5, 1, 2, 3, 4, 5] := by
  decide

/-- C5 as stated fails: on the fresh store, CompleteTask of task 1 at
09:00:00.0009 succeeds; the completedAt of the returned task and the stored
lastCompletedAt are 09:00:00.000 and the stored cooldown end is 09:05:00.000,
while the returned cooldown_until is 09:05:00.0009, which is not that time plus 5
minutes. -/
theorem C5_cooldown_until_is_not_truncated :
    (CompleteTask (atInstant freshTasksStore (nineAM + 900000)) "u"
        "000000000000000000000001").1.err = none ∧
    (resultTask (CompleteTask (atInstant freshTasksStore (nineAM + 900000)) "u"
        "000000000000000000000001").1.result).map (fun t => t.CompletedAt)
      = some (some nineAM) ∧
    (progressOf (CompleteTask (atInstant freshTasksStore (nineAM + 900000)) "u"
        "000000000000000000000001").2.db "u").map
        (fun p => (p.LastCompletedAt, p.LastCooldownEnd))
      = some (some nineAM, some (nineAM + 5 * Minute)) ∧
    resultCooldownUntil (CompleteTask (atInstant freshTasksStore (nineAM + 900000)) "u"
        "000000000000000000000001").1.result
      = some (nineAM + 900000 + 5 * Minute) ∧
    nineAM + 900000 + 5 * Minute ≠ nineAM + 5 * Minute := by
  decide

/-- C5 (amended): whenever CompleteTask succeeds (in any world, whatever the clock
does), it returns a success payload; the stored progress of the user then has a
completedCount one above that of the progress loaded after the reset check, the
returned completed_count is the stored one, the returned task is the stored task
with completed=true and a completedAt that is also the stored lastCompletedAt,
namely a clock reading in whole milliseconds, and the stored cooldown end is that
time plus 5 minutes. The returned cooldown_until is the reading itself plus 5
minutes: not before the stored cooldown end and less than one millisecond after
it. -/
theorem C5_success_records_completion (w : World) (userID taskID : String)
    (h : (CompleteTask w userID taskID).1.err = none) :
    ∃ (task : DailyTask) (completed_count next_reset_at cooldown_until : Int)
      (stored : DailyTaskProgress) (completedAt reading : Int),
      (CompleteTask w userID taskID).1.result
        = some (CompleteResult.success task completed_count next_reset_at cooldown_until) ∧
      progressOf (CompleteTask w userID taskID).2.db userID = some stored ∧
      stored.CompletedCount = (loadedProgress w userID).1.CompletedCount + 1 ∧
      completed_count = stored.CompletedCount ∧
      findOne (fun t => t.ID == task.ID) (CompleteTask w userID taskID).2.db.daily_tasks
        = some task ∧
      completedAt = bsonDateTime reading ∧
      task.CompletedAt = some completedAt ∧
      stored.LastCompletedAt = some completedAt ∧
      stored.LastCooldownEnd = some (completedAt + 5 * Minute) ∧
      cooldown_until = reading + 5 * Minute ∧
      completedAt + 5 * Minute ≤ cooldown_until ∧
      cooldown_until < completedAt + 5 * Minute + Millisecond ∧
      task.Completed = true := by
  obtain ⟨objID, found, _, _, _, hfound, heq⟩ := CompleteTask_success w userID taskID h
  have hs := loadedProgress_stored w userID
  rw [heq]
  have hID : found.ID = objID := by
    have := List.find?_some hfound
    simpa using this
  have hle := bsonDateTime_le ((loadedProgress w userID).2.clock 1)
  have hlt := lt_bsonDateTime_add ((loadedProgress w userID).2.clock 1)
  refine ⟨_, _, _, _,
    { (loadedProgress w userID).1 with
        CompletedCount := (loadedProgress w userID).1.CompletedCount + 1,
        LastCompletedAt := some (bsonDateTime ((loadedProgress w userID).2.clock 1)),
        LastCooldownEnd := some (bsonDateTime ((loadedProgress w userID).2.clock 1) + 5 * Minute),
        NextResetAt := AddDate (startOfDay ((loadedProgress w userID).2.clock 2)) 1,
        UpdatedAt := bsonDateTime ((loadedProgress w userID).2.clock 1) },
    bsonDateTime ((loadedProgress w userID).2.clock 1), (loadedProgress w userID).2.clock 1,
    rfl, ?_, rfl, rfl, ?_, rfl, rfl, rfl, rfl, rfl, by omega, by omega, rfl⟩
  · simp only [progressOf, findOne] at hs ⊢
    rw [find?_updateOne, hs]
    · rfl
    · intro x hx
      exact hx
  · simp only [findOne] at hfound ⊢
    have hpred : (fun t : DailyTask => t.ID == found.ID) = (fun t => t.ID == objID) := by
      rw [hID]
    simp only [hpred]
    rw [find?_updateOne, hfound]
    · rfl
    · intro x hx
      exact hx

/-- Witness for C5 (amended): completing task 1 at 09:00:00.0009 on the fresh store
succeeds, and the conclusion holds there. -/
theorem C5_success_records_completion_witness :
    (CompleteTask (atInstant freshTasksStore (nineAM + 900000)) "u"
      "000000000000000000000001").1.err = none ∧
    ∃ (task : DailyTask) (completed_count next_reset_at cooldown_until : Int)
      (stored : DailyTaskProgress) (completedAt reading : Int),
      (CompleteTask (atInstant freshTasksStore (nineAM + 900000)) "u"
          "000000000000000000000001").1.result
        = some (CompleteResult.success task completed_count next_reset_at cooldown_until) ∧
      progressOf
        (CompleteTask (atInstant freshTasksStore (nineAM + 900000)) "u"
          "000000000000000000000001").2.db "u"
        = some stored ∧
      stored.CompletedCount
        = (loadedProgress (atInstant freshTasksStore (nineAM + 900000)) "u").1.CompletedCount
          + 1 ∧
      completed_count = stored.CompletedCount ∧
      findOne (fun t => t.ID == task.ID)
        (CompleteTask (atInstant freshTasksStore (nineAM + 900000)) "u"
          "000000000000000000000001").2.db.daily_tasks = some task ∧
      completedAt = bsonDateTime reading ∧
      task.CompletedAt = some completedAt ∧
      stored.LastCompletedAt = some completedAt ∧
      stored.LastCooldownEnd = some (completedAt + 5 * Minute) ∧
      cooldown_until = reading + 5 * Minute ∧
      completedAt + 5 * Minute ≤ cooldown_until ∧
      cooldown_until < completedAt + 5 * Minute + Millisecond ∧
      task.Completed = true :=
  ⟨by decide,
   C5_success_records_completion (atInstant freshTasksStore (nineAM + 900000)) "u"
     "000000000000000000000001" (by decide)⟩

/-- C6: for a stored progress record with completedCount < 5 and nextResetAt not
before now, CompleteTask at instant now returns the error "cooldown period
active" exactly when lastCompletedAt is set and fewer than 300 seconds have
elapsed; with lastCompletedAt unset, or exactly 300 seconds elapsed, the cooldown
check does not reject. -/
theorem C6_cooldown_rejection_iff (db : DB) (now : Int) (userID taskID : String)
    (p : DailyTaskProgress) (hp : progressOf db userID = some p)
    (hcount : p.CompletedCount < 5) (hreset : ¬ p.NextResetAt < now) :
    ((CompleteTask (atInstant db now) userID taskID).1.err = some "cooldown period active" ↔
      ∃ last, p.LastCompletedAt = some last ∧ now - last < 300 * Second) ∧
    (p.LastCompletedAt = none →
      (CompleteTask (atInstant db now) userID taskID).1.err ≠ some "cooldown period active") ∧
    (p.LastCompletedAt = some (now - 300 * Second) →
      (CompleteTask (atInstant db now) userID taskID).1.err ≠ some "cooldown period active") := by
  have key : ((CompleteTask (atInstant db now) userID taskID).1.err = some "cooldown period active" ↔
      ∃ last, p.LastCompletedAt = some last ∧ now - last < 300 * Second) := by
    unfold CompleteTask
    simp only [CheckAndResetDaily_noReset db now userID p hp hreset,
      GetOrCreateProgress_atInstant_some db now userID p hp, timeNow_atInstant]
    have h5 : ¬ p.CompletedCount ≥ 5 := by omega
    simp only [if_neg h5]
    have hm : (300 : Int) * Second = 5 * Minute := by decide
    rw [hm]
    cases hl : p.LastCompletedAt with
    | none =>
      simp only [cooldownRejection, hl]
      cases ObjectIDFromHex taskID with
      | none => simp
      | some objID =>
        simp only []
        cases findOne (fun t => t.ID == objID) (atInstant db now).db.daily_tasks with
        | none => simp [ErrNoDocuments]
        | some found => simp
    | some last =>
      simp only [cooldownRejection, hl]
      by_cases hs : Sub now last < 5 * Minute
      · simp [hs, (Sub_lt_iff now last).1 hs]
      · have hs2 : ¬ now - last < 5 * Minute := fun h => hs ((Sub_lt_iff now last).2 h)
        simp only [if_neg hs]
        cases ObjectIDFromHex taskID with
        | none => simp [hs2]
        | some objID =>
          simp only []
          cases findOne (fun t => t.ID == objID) (atInstant db now).db.daily_tasks with
          | none => simp [ErrNoDocuments, hs2]
          | some found => simp [hs2]
  refine ⟨key, ?_, ?_⟩
  · intro hl hc
    obtain ⟨last, h1, _⟩ := key.1 hc
    rw [hl] at h1
    cases h1
  · intro hl hc
    obtain ⟨last, h1, h2⟩ := key.1 hc
    rw [hl] at h1
    cases h1
    omega

/-- Witness for C6: two minutes after the completion recorded in `oneDoneStore`. -/
theorem C6_cooldown_rejection_iff_witness :
    progressOf oneDoneStore "u" = some oneDoneProgress ∧
    oneDoneProgress.CompletedCount < 5 ∧
    ¬ oneDoneProgress.NextResetAt < nineAM + 2 * Minute ∧
    (((CompleteTask (atInstant oneDoneStore (nineAM + 2 * Minute)) "u"
          "000000000000000000000002").1.err = some "cooldown period active" ↔
        ∃ last, oneDoneProgress.LastCompletedAt = some last ∧
          nineAM + 2 * Minute - last < 300 * Second) ∧
      (oneDoneProgress.LastCompletedAt = none →
        (CompleteTask (atInstant oneDoneStore (nineAM + 2 * Minute)) "u"
          "000000000000000000000002").1.err ≠ some "cooldown period active") ∧
      (oneDoneProgress.LastCompletedAt = some (nineAM + 2 * Minute - 300 * Second) →
        (CompleteTask (atInstant oneDoneStore (nineAM + 2 * Minute)) "u"
          "000000000000000000000002").1.err ≠ some "cooldown period active")) :=
  ⟨by decide, by decide, by decide,
   C6_cooldown_rejection_iff oneDoneStore (nineAM + 2 * Minute) "u" "000000000000000000000002"
     oneDoneProgress (by decide) (by decide) (by decide)⟩

/-- C7 (as stated, refuted): 120.5 seconds after the last completion the returned
remaining_seconds is 179, while the ceiling of the remaining 179.5 seconds is 180. -/
theorem C7_remaining_seconds_not_ceiling :
    remainingSecondsOf (CompleteTask (atInstant oneDoneStore (nineAM + 120500000000)) "u"
      "000000000000000000000002").1 = some 179 ∧
    ceilSeconds (300 * Second - 120500000000) = 180 := by
  decide

/-- C7 (amended): for an elapsed time e with 0 ≤ e < 300 s since lastCompletedAt,
CompleteTask is rejected with the cooldown error and its remaining_seconds is
(300 s − e) truncated to whole seconds, the floor; this equals the ceiling exactly
when e is a whole number of seconds. -/
theorem C7_remaining_seconds_truncated (db : DB) (now e : Int) (userID taskID : String)
    (p : DailyTaskProgress) (hp : progressOf db userID = some p)
    (hcount : p.CompletedCount < 5) (hreset : ¬ p.NextResetAt < now)
    (hlast : p.LastCompletedAt = some (now - e)) (h0 : 0 ≤ e) (h300 : e < 300 * Second) :
    (CompleteTask (atInstant db now) userID taskID).1.err = some "cooldown period active" ∧
    remainingSecondsOf (CompleteTask (atInstant db now) userID taskID).1
      = some ((300 * Second - e) / Second) ∧
    ((300 * Second - e) / Second = ceilSeconds (300 * Second - e) ↔ e % Second = 0) := by
  have h5 : ¬ p.CompletedCount ≥ 5 := by omega
  have hsub : Sub now (now - e) = e := by
    unfold Sub maxDuration minDuration
    unfold Second at h300
    split
    · omega
    · split <;> omega
  have hwrap : wrapInt64 (5 * Minute - e) = 300 * Second - e := by
    unfold wrapInt64 Minute Second
    unfold Second at h300
    omega
  have hsec : secondsInt (300 * Second - e) = (300 * Second - e) / Second := by
    unfold secondsInt
    rw [Int.tdiv_eq_ediv]
    · unfold Second at h300 ⊢; omega
    · decide
  have hlt : e < 5 * Minute := by
    unfold Minute; unfold Second at h300 ⊢; omega
  have hcd : cooldownRejection p now = some (CompleteResult.cooldown
      ("cooldown active, wait " ++ toString ((300 * Second - e) / Second) ++ " seconds")
      ((300 * Second - e) / Second)) := by
    unfold cooldownRejection
    simp only [hlast, hsub, if_pos hlt, hwrap, hsec]
  refine ⟨?_, ?_, ?_⟩
  · unfold CompleteTask
    simp only [CheckAndResetDaily_noReset db now userID p hp hreset,
      GetOrCreateProgress_atInstant_some db now userID p hp, timeNow_atInstant, if_neg h5, hcd]
  · unfold CompleteTask
    simp only [CheckAndResetDaily_noReset db now userID p hp hreset,
      GetOrCreateProgress_atInstant_some db now userID p hp, timeNow_atInstant, if_neg h5, hcd]
    rfl
  · unfold ceilSeconds Second
    omega

/-- Witness for C7 (amended): 120.5 seconds after the completion recorded in
`oneDoneStore`. -/
theorem C7_remaining_seconds_truncated_witness :
    progressOf oneDoneStore "u" = some oneDoneProgress ∧
    oneDoneProgress.LastCompletedAt = some (nineAM + 120500000000 - 120500000000) ∧
    (CompleteTask (atInstant oneDoneStore (nineAM + 120500000000)) "u"
      "000000000000000000000002").1.err = some "cooldown period active" ∧
    remainingSecondsOf (CompleteTask (atInstant oneDoneStore (nineAM + 120500000000)) "u"
      "000000000000000000000002").1 = some ((300 * Second - 120500000000) / Second) ∧
    ((300 * Second - 120500000000) / Second = ceilSeconds (300 * Second - 120500000000) ↔
      120500000000 % Second = 0) :=
  ⟨by decide, by decide,
   C7_remaining_seconds_truncated oneDoneStore (nineAM + 120500000000) 120500000000 "u"
     "000000000000000000000002" oneDoneProgress (by decide) (by decide) (by decide) (by decide)
     (by decide) (by decide)⟩

/-- C8: for a stored progress record with completedCount ≥ 5 and nextResetAt not
before now, CompleteTask returns the error "all 5 daily tasks already completed"
(and no payload), whatever lastCompletedAt and the task id are; and in every
sequential run of engine calls (of this and of other users) made within one
calendar day, from a store whose completedCount for the user is not negative, once
the run holds five successful completions by the user, every further CompleteTask
of the user on that day returns this error. -/
theorem C8_limit_reached (db : DB) (now : Int) (userID taskID : String)
    (p : DailyTaskProgress) (hp : progressOf db userID = some p)
    (h5 : 5 ≤ p.CompletedCount) (hreset : ¬ p.NextResetAt < now) :
    (CompleteTask (atInstant db now) userID taskID).1
      = { result := none, err := some "all 5 daily tasks already completed" } ∧
    ∀ (db0 : DB) (calls : List (Int × Call)) (t : Int) (tid : String),
      (∀ p0, progressOf db0 userID = some p0 → 0 ≤ p0.CompletedCount) →
      (∀ c ∈ calls, startOfDay c.1 = startOfDay t) →
      5 ≤ successfulCompletions db0 userID calls →
      (CompleteTask (atInstant (runCalls db0 calls) t) userID tid).1
        = { result := none, err := some "all 5 daily tasks already completed" } := by
  refine ⟨CompleteTask_limit db now userID taskID p hp h5 hreset, ?_⟩
  intro db0 calls t tid hnonneg hday hfive
  have h0 : dayInvariant db0 userID (startOfDay t) 0 :=
    ⟨fun p0 hp0 => by simpa using hnonneg p0 hp0, fun h => absurd h (by omega)⟩
  have hJ := dayInvariant_run userID (startOfDay t) calls db0 0 h0 hday
  obtain ⟨q, hq1, hq2⟩ := hJ.2 (by omega)
  have hq3 := hJ.1 q hq1
  refine CompleteTask_limit _ t userID tid q hq1 ?_ ?_
  · push_cast at hq3
    omega
  · have := lt_startOfDay_add t
    rw [hq2]
    omega

set_option maxRecDepth 100000 in
/-- Witness for C8: the store at the end of `fullDayRun`, asked again at 10:00 with
a malformed id; and the run `fullDayRun` itself, followed by a completion at
09:21. -/
theorem C8_limit_reached_witness :
    progressOf fiveDoneStore "u" = some fiveDoneProgress ∧
    5 ≤ fiveDoneProgress.CompletedCount ∧
    ¬ fiveDoneProgress.NextResetAt < nineAM + 60 * Minute ∧
    (CompleteTask (atInstant fiveDoneStore (nineAM + 60 * Minute)) "u" "not-an-id").1
      = { result := none, err := some "all 5 daily tasks already completed" } ∧
    successfulCompletions emptyDB "u" fullDayRun = 5 ∧
    (CompleteTask (atInstant (runCalls emptyDB fullDayRun) (nineAM + 21 * Minute)) "u"
        "000000000000000000000001").1
      = { result := none, err := some "all 5 daily tasks already completed" } :=
  ⟨by decide, by decide, by decide,
   (C8_limit_reached fiveDoneStore (nineAM + 60 * Minute) "u" "not-an-id" fiveDoneProgress
     (by decide) (by decide) (by decide)).1,
   by decide,
   (C8_limit_reached fiveDoneStore (nineAM + 60 * Minute) "u" "not-an-id" fiveDoneProgress
     (by decide) (by decide) (by decide)).2 emptyDB fullDayRun (nineAM + 21 * Minute)
     "000000000000000000000001"
     (fun p0 h0 => absurd h0 (by
        have hnone : progressOf emptyDB "u" = none := by decide
        rw [hnone]
        exact fun h => Option.noConfusion h))
     (by decide) (by decide)⟩

/-- C9: in any world, the error returned by CompleteTask is decided by the checks in
the order limit, cooldown, id validity, task lookup, all evaluated on the progress
loaded after the reset check: the limit error when completedCount ≥ 5; otherwise
the cooldown error when the cooldown is active; otherwise "invalid task id format"
when the id is malformed; otherwise the lookup error when no task has the id; and
no error otherwise. -/
theorem C9_check_order (w : World) (userID taskID : String) :
    (CompleteTask w userID taskID).1.err =
      if 5 ≤ (loadedProgress w userID).1.CompletedCount then
        some "all 5 daily tasks already completed"
      else if (loadedProgress w userID).1.LastCompletedAt.any
          (fun last => decide ((loadedProgress w userID).2.clock 0 - last < 5 * Minute)) then
        some "cooldown period active"
      else
        match ObjectIDFromHex taskID with
        | none => some "invalid task id format"
        | some objID =>
          match findOne (fun t => t.ID == objID) (loadedProgress w userID).2.db.daily_tasks with
          | none => some ErrNoDocuments
          | some _ => none :=
  CompleteTask_err w userID taskID

/-- C10: when the stored progress has nextResetAt not before now and CompleteTask
returns an error, the error is one of the four rejections (limit, cooldown,
malformed id, no such task) and the store after the call is the store before
it. -/
theorem C10_rejection_leaves_store (db : DB) (now : Int) (userID taskID : String)
    (p : DailyTaskProgress) (hp : progressOf db userID = some p)
    (hreset : ¬ p.NextResetAt < now)
    (herr : (CompleteTask (atInstant db now) userID taskID).1.err ≠ none) :
    (CompleteTask (atInstant db now) userID taskID).2.db = db ∧
    (CompleteTask (atInstant db now) userID taskID).1.err ∈
      [some "all 5 daily tasks already completed", some "cooldown period active",
       some "invalid task id format", some ErrNoDocuments] := by
  have h := CompleteTask_err_db (atInstant db now) userID taskID herr
  rw [loadedProgress_noReset db now userID p hp hreset] at h
  exact h

/-- Witness for C10: a completion attempted two minutes into the cooldown. -/
theorem C10_rejection_leaves_store_witness :
    progressOf oneDoneStore "u" = some oneDoneProgress ∧
    ¬ oneDoneProgress.NextResetAt < nineAM + 2 * Minute ∧
    (CompleteTask (atInstant oneDoneStore (nineAM + 2 * Minute)) "u"
      "000000000000000000000002").1.err ≠ none ∧
    (CompleteTask (atInstant oneDoneStore (nineAM + 2 * Minute)) "u"
      "000000000000000000000002").2.db = oneDoneStore ∧
    (CompleteTask (atInstant oneDoneStore (nineAM + 2 * Minute)) "u"
      "000000000000000000000002").1.err ∈
      [some "all 5 daily tasks already completed", some "cooldown period active",
       some "invalid task id format", some ErrNoDocuments] :=
  ⟨by decide, by decide, by decide,
   C10_rejection_leaves_store oneDoneStore (nineAM + 2 * Minute) "u"
     "000000000000000000000002" oneDoneProgress (by decide) (by decide) (by decide)⟩

/-- C11 (the code departs from it): at 09:00 of day 1 the task with id 3 is a task of
day 0 (resetAt = midnight of day 1, not the midnight following now) and is not
completed; CompleteTask on it succeeds, marks it completed and raises the
progress count from 0 to 1. -/
theorem C11_stale_task_is_completed :
    (findOne (fun t => t.ID == 3) dayTwoStore.daily_tasks).map
      (fun t => (t.ResetAt, t.Completed)) = some (Day, false) ∧
    AddDate (startOfDay (Day + nineAM)) 1 = 2 * Day ∧
    (progressOf dayTwoStore "u").map (fun p => p.CompletedCount) = some 0 ∧
    (CompleteTask (atInstant dayTwoStore (Day + nineAM)) "u"
      "000000000000000000000003").1.err = none ∧
    (findOne (fun t => t.ID == 3)
      (CompleteTask (atInstant dayTwoStore (Day + nineAM)) "u"
        "000000000000000000000003").2.db.daily_tasks).map
      (fun t => (t.ResetAt, t.Completed)) = some (Day, true) ∧
    (progressOf
      (CompleteTask (atInstant dayTwoStore (Day + nineAM)) "u"
        "000000000000000000000003").2.db "u").map (fun p => p.CompletedCount) = some 1 := by
  decide

/-- C12: when the stored progress of the user has nextResetAt strictly before now,
CheckAndResetDaily at instant now leaves as task collection the old one without
the user's tasks whose resetAt is before today's midnight, followed by five new
tasks numbered 1..5, uncompleted, with resetAt = tomorrow's midnight; no task of
the user with resetAt before today's midnight remains; the user's progress is the
old record with completedCount 0, lastCompletedAt and cooldown end unset and
nextResetAt = tomorrow's midnight; and the tasks and progress records of every
other user are as before. -/
theorem C12_reset_effect (db : DB) (now : Int) (userID : String)
    (p : DailyTaskProgress) (hp : progressOf db userID = some p) (hpast : p.NextResetAt < now) :
    (CheckAndResetDaily (atInstant db now) userID).db.daily_tasks =
      deleteMany (fun t => t.UserID == userID && decide (t.ResetAt < startOfDay now))
        db.daily_tasks ++
      [freshTask db.nextID userID 1 (bsonDateTime now) (AddDate (startOfDay now) 1),
       freshTask (db.nextID + 1) userID 2 (bsonDateTime now) (AddDate (startOfDay now) 1),
       freshTask (db.nextID + 2) userID 3 (bsonDateTime now) (AddDate (startOfDay now) 1),
       freshTask (db.nextID + 3) userID 4 (bsonDateTime now) (AddDate (startOfDay now) 1),
       freshTask (db.nextID + 4) userID 5 (bsonDateTime now) (AddDate (startOfDay now) 1)] ∧
    (∀ t ∈ (CheckAndResetDaily (atInstant db now) userID).db.daily_tasks,
      t.UserID = userID → ¬ t.ResetAt < startOfDay now) ∧
    progressOf (CheckAndResetDaily (atInstant db now) userID).db userID
      = some (resetProgress p now) ∧
    (∀ v, v ≠ userID →
      (CheckAndResetDaily (atInstant db now) userID).db.daily_tasks.filter
          (fun t => t.UserID == v) = db.daily_tasks.filter (fun t => t.UserID == v) ∧
      (CheckAndResetDaily (atInstant db now) userID).db.daily_task_progress.filter
          (fun q => q.UserID == v) = db.daily_task_progress.filter (fun q => q.UserID == v)) := by
  rw [CheckAndResetDaily_reset db now userID p hp hpast]
  have hday := startOfDay_le now
  have hnext := lt_startOfDay_add now
  refine ⟨rfl, ?_, ?_, ?_⟩
  · intro t ht hu
    simp only [List.mem_append, deleteMany, List.mem_filter, List.mem_cons, List.mem_singleton,
      List.not_mem_nil, or_false] at ht
    rcases ht with ⟨_, hkeep⟩ | h | h | h | h | h
    · simpa [hu] using hkeep
    all_goals (subst h; simp only [freshTask]; omega)
  · simp only [progressOf, findOne] at hp ⊢
    rw [find?_updateOne, hp]
    · rfl
    · intro x hx
      exact hx
  · intro v hv
    constructor
    · simp only [List.filter_append]
      rw [filter_deleteMany_other]
      · have hne : (userID == v) = false := by simpa using fun h => hv h.symm
        simp [freshTask, hne]
      · intro x hx
        simp only [Bool.and_eq_true, beq_iff_eq] at hx
        simpa [hx.1] using fun h => hv h.symm
    · simp only []
      rw [filter_updateOne_other]
      intro x hx
      have hxu : x.UserID = userID := by simpa using hx
      have : (userID == v) = false := by simpa using fun h => hv h.symm
      simp [resetProgress, hxu, this]

/-- Witness for C12: the reset of `morningAfterStore` at 09:00 of day 1. -/
theorem C12_reset_effect_witness :
    progressOf morningAfterStore "u" = some morningAfterProgress ∧
    morningAfterProgress.NextResetAt < Day + nineAM ∧
    (CheckAndResetDaily (atInstant morningAfterStore (Day + nineAM)) "u").db.daily_tasks =
      deleteMany (fun t => t.UserID == "u" && decide (t.ResetAt < startOfDay (Day + nineAM)))
        morningAfterStore.daily_tasks ++
      [freshTask morningAfterStore.nextID "u" 1 (bsonDateTime (Day + nineAM))
         (AddDate (startOfDay (Day + nineAM)) 1),
       freshTask (morningAfterStore.nextID + 1) "u" 2 (bsonDateTime (Day + nineAM))
         (AddDate (startOfDay (Day + nineAM)) 1),
       freshTask (morningAfterStore.nextID + 2) "u" 3 (bsonDateTime (Day + nineAM))
         (AddDate (startOfDay (Day + nineAM)) 1),
       freshTask (morningAfterStore.nextID + 3) "u" 4 (bsonDateTime (Day + nineAM))
         (AddDate (startOfDay (Day + nineAM)) 1),
       freshTask (morningAfterStore.nextID + 4) "u" 5 (bsonDateTime (Day + nineAM))
         (AddDate (startOfDay (Day + nineAM)) 1)] ∧
    progressOf (CheckAndResetDaily (atInstant morningAfterStore (Day + nineAM)) "u").db "u"
      = some (resetProgress morningAfterProgress (Day + nineAM)) :=
  ⟨by decide, by decide,
   (C12_reset_effect morningAfterStore (Day + nineAM) "u" morningAfterProgress
     (by decide) (by decide)).1,
   (C12_reset_effect morningAfterStore (Day + nineAM) "u" morningAfterProgress
     (by decide) (by decide)).2.2.1⟩

/-- C13: at a fixed instant, running CheckAndResetDaily twice leaves the same world
as running it once; and it leaves the store unchanged whenever the stored
progress record of the user has nextResetAt not strictly before now. -/
theorem C13_reset_check_idempotent (db : DB) (now : Int) (userID : String) :
    CheckAndResetDaily (CheckAndResetDaily (atInstant db now) userID) userID
      = CheckAndResetDaily (atInstant db now) userID ∧
    ∀ p, progressOf db userID = some p → ¬ p.NextResetAt < now →
      (CheckAndResetDaily (atInstant db now) userID).db = db := by
  constructor
  · obtain ⟨q, hq, hn, _⟩ := CheckAndResetDaily_progress db now userID
    rw [CheckAndResetDaily_atInstant db now userID]
    exact CheckAndResetDaily_noReset _ now userID q hq hn
  · intro p hp hn
    rw [CheckAndResetDaily_noReset db now userID p hp hn]
    rfl

/-- Witness for C13: the reset check on `oneDoneStore`, two minutes after the
completion, changes nothing; on `morningAfterStore` at 09:00 of day 1 it resets,
and a second run changes nothing more. -/
theorem C13_reset_check_idempotent_witness :
    progressOf oneDoneStore "u" = some oneDoneProgress ∧
    ¬ oneDoneProgress.NextResetAt < nineAM + 2 * Minute ∧
    (CheckAndResetDaily (atInstant oneDoneStore (nineAM + 2 * Minute)) "u").db = oneDoneStore ∧
    (CheckAndResetDaily (atInstant morningAfterStore (Day + nineAM)) "u").db ≠ morningAfterStore ∧
    CheckAndResetDaily (CheckAndResetDaily (atInstant morningAfterStore (Day + nineAM)) "u") "u"
      = CheckAndResetDaily (atInstant morningAfterStore (Day + nineAM)) "u" :=
  ⟨by decide, by decide,
   (C13_reset_check_idempotent oneDoneStore (nineAM + 2 * Minute) "u").2 oneDoneProgress
     (by decide) (by decide),
   by decide,
   (C13_reset_check_idempotent morningAfterStore (Day + nineAM) "u").1⟩

/-- C14 (as stated, refuted): the progress record created at 09:00 of day 0 has
nextResetAt = midnight of day 1; CheckAndResetDaily at exactly that midnight does
not reset and leaves nextResetAt = now, while the midnight following now is the
midnight of day 2; a CompleteTask at that instant succeeds without a reset and
moves nextResetAt to the midnight of day 2. -/
theorem C14_midnight_keeps_nextResetAt :
    [(nineAM, Call.getOrCreateProgress "u")].Pairwise (fun a b => a.1 ≤ b.1) ∧
    nineAM ≤ Day ∧
    (progressOf progressOnlyStore "u").map (fun p => p.NextResetAt) = some Day ∧
    (progressOf (CheckAndResetDaily (atInstant progressOnlyStore Day) "u").db "u").map
      (fun p => p.NextResetAt) = some Day ∧
    AddDate (startOfDay Day) 1 = 2 * Day ∧
    (CompleteTask (atInstant (runCalls progressOnlyStore [(nineAM, Call.getOrCreateDailyTasks "u")])
      Day) "u" "000000000000000000000002").1.err = none ∧
    (progressOf (CompleteTask
      (atInstant (runCalls progressOnlyStore [(nineAM, Call.getOrCreateDailyTasks "u")])
      Day) "u" "000000000000000000000002").2.db "u").map (fun p => p.NextResetAt)
      = some (2 * Day) := by
  decide

/-- C14 (amended): in every store reached from the empty store by engine calls
under a non-decreasing clock, at an instant now not before those calls: after
CheckAndResetDaily the user's stored nextResetAt is the midnight following now,
unless now is itself a midnight equal to the stored nextResetAt, in which case the
record is untouched and nextResetAt = now; after a successful CompleteTask it is
the midnight following now, and it is unchanged when now is strictly before the
nextResetAt stored before the call. -/
theorem C14_nextResetAt_after_call (calls : List (Int × Call)) (now : Int)
    (userID taskID : String)
    (hord : calls.Pairwise (fun a b => a.1 ≤ b.1)) (hnow : ∀ c ∈ calls, c.1 ≤ now) :
    (∃ q, progressOf (CheckAndResetDaily (atInstant (runCalls emptyDB calls) now) userID).db
          userID = some q ∧
        (q.NextResetAt = AddDate (startOfDay now) 1 ∨
          (q.NextResetAt = now ∧ now = startOfDay now ∧
            progressOf (runCalls emptyDB calls) userID = some q))) ∧
    ((CompleteTask (atInstant (runCalls emptyDB calls) now) userID taskID).1.err = none →
      ∃ q, progressOf (CompleteTask (atInstant (runCalls emptyDB calls) now) userID taskID).2.db
          userID = some q ∧
        q.NextResetAt = AddDate (startOfDay now) 1 ∧
        ∀ p, progressOf (runCalls emptyDB calls) userID = some p → now < p.NextResetAt →
          q.NextResetAt = p.NextResetAt) := by
  have hinv := resetBound_reachable calls now hord hnow
  have hstored : ∀ p, progressOf (runCalls emptyDB calls) userID = some p →
      ¬ p.NextResetAt < now →
      p.NextResetAt = AddDate (startOfDay now) 1 ∨
        (p.NextResetAt = now ∧ now = startOfDay now) := by
    intro p hp hn
    have hb := hinv p (List.mem_of_find?_eq_some hp)
    unfold resetBound AddDate startOfDay Day Second at *
    omega
  constructor
  · obtain ⟨q, hq, hn, hc⟩ := CheckAndResetDaily_progress (runCalls emptyDB calls) now userID
    refine ⟨q, hq, ?_⟩
    rcases hc with hsame | hfresh
    · rcases hstored q hsame hn with h1 | h1
      · exact Or.inl h1
      · exact Or.inr ⟨h1.1, h1.2, hsame⟩
    · exact Or.inl hfresh.2.1
  · intro herr
    obtain ⟨q, hq1, _, hq3⟩ :=
      CompleteTask_success_atInstant (runCalls emptyDB calls) now userID taskID herr
    refine ⟨q, hq1, hq3, ?_⟩
    intro p hp hlt
    rcases hstored p hp (by omega) with h1 | h1
    · rw [hq3, h1]
    · omega

set_option maxRecDepth 100000 in
/-- Witness for C14 (amended): after `fullDayRun`, a reset check at 09:21; and on
the fresh store a completion of task 1 at 09:01. -/
theorem C14_nextResetAt_after_call_witness :
    fullDayRun.Pairwise (fun a b => a.1 ≤ b.1) ∧
    (∀ c ∈ fullDayRun, c.1 ≤ nineAM + 21 * Minute) ∧
    (∃ q, progressOf (CheckAndResetDaily (atInstant (runCalls emptyDB fullDayRun)
          (nineAM + 21 * Minute)) "u").db "u" = some q ∧
        (q.NextResetAt = AddDate (startOfDay (nineAM + 21 * Minute)) 1 ∨
          (q.NextResetAt = nineAM + 21 * Minute ∧
            nineAM + 21 * Minute = startOfDay (nineAM + 21 * Minute) ∧
            progressOf (runCalls emptyDB fullDayRun) "u" = some q))) ∧
    (CompleteTask (atInstant (runCalls emptyDB [(nineAM, Call.getOrCreateDailyTasks "u")])
      (nineAM + Minute)) "u" "000000000000000000000001").1.err = none ∧
    (∃ q, progressOf (CompleteTask
          (atInstant (runCalls emptyDB [(nineAM, Call.getOrCreateDailyTasks "u")])
            (nineAM + Minute)) "u" "000000000000000000000001").2.db "u" = some q ∧
        q.NextResetAt = AddDate (startOfDay (nineAM + Minute)) 1 ∧
        ∀ p, progressOf (runCalls emptyDB [(nineAM, Call.getOrCreateDailyTasks "u")]) "u"
            = some p → nineAM + Minute < p.NextResetAt → q.NextResetAt = p.NextResetAt) :=
  ⟨by decide, by decide,
   (C14_nextResetAt_after_call fullDayRun (nineAM + 21 * Minute) "u"
     "000000000000000000000001" (by decide) (by decide)).1,
   by decide,
   (C14_nextResetAt_after_call [(nineAM, Call.getOrCreateDailyTasks "u")] (nineAM + Minute)
     "u" "000000000000000000000001" (by decide) (by decide)).2 (by decide)⟩

/-- C15: in every store reached from the empty store by a sequential run of engine
calls (GetOrCreateProgress, CheckAndResetDaily, CompleteTask, and also
GetOrCreateDailyTasks, at any instants), each progress record has lastCompletedAt
and the cooldown end both unset, or both set with cooldown end = lastCompletedAt +
5 minutes. -/
theorem C15_cooldown_end_consistent (calls : List (Int × Call)) (p : DailyTaskProgress)
    (hp : p ∈ (runCalls emptyDB calls).daily_task_progress) :
    (p.LastCompletedAt = none ∧ p.LastCooldownEnd = none) ∨
    (∃ t, p.LastCompletedAt = some t ∧ p.LastCooldownEnd = some (t + 5 * Minute)) := by
  refine progress_forall_runCalls
    (fun p => (p.LastCompletedAt = none ∧ p.LastCooldownEnd = none) ∨
      (∃ t, p.LastCompletedAt = some t ∧ p.LastCooldownEnd = some (t + 5 * Minute)))
    ?_ ?_ ?_ calls emptyDB ?_ p hp
  · intro id u now
    exact Or.inl ⟨rfl, rfl⟩
  · intro p now _
    exact Or.inl ⟨rfl, rfl⟩
  · intro p l now _ _ _
    exact Or.inr ⟨bsonDateTime now, rfl, rfl⟩
  · intro p hp
    simp [emptyDB] at hp

set_option maxRecDepth 100000 in
/-- Witness for C15: the record of "u" at the end of `fullDayRun`. -/
theorem C15_cooldown_end_consistent_witness :
    fiveDoneProgress ∈ (runCalls emptyDB fullDayRun).daily_task_progress ∧
    ((fiveDoneProgress.LastCompletedAt = none ∧ fiveDoneProgress.LastCooldownEnd = none) ∨
      (∃ t, fiveDoneProgress.LastCompletedAt = some t ∧
        fiveDoneProgress.LastCooldownEnd = some (t + 5 * Minute))) :=
  ⟨by decide, C15_cooldown_end_consistent fullDayRun fiveDoneProgress (by decide)⟩

/-- C16: in every store reached from the empty store by a sequential run of engine
calls, every progress record has 0 ≤ completedCount ≤ 5. -/
theorem C16_count_between_0_and_5 (calls : List (Int × Call)) (p : DailyTaskProgress)
    (hp : p ∈ (runCalls emptyDB calls).daily_task_progress) :
    0 ≤ p.CompletedCount ∧ p.CompletedCount ≤ 5 := by
  refine progress_forall_runCalls
    (fun p => 0 ≤ p.CompletedCount ∧ p.CompletedCount ≤ 5)
    ?_ ?_ ?_ calls emptyDB ?_ p hp
  · intro id u now
    simp [freshProgress]
  · intro p now _
    simp [resetProgress]
  · intro p l now _ hl hlt
    simp only [successProgress]
    omega
  · intro p hp
    simp [emptyDB] at hp

set_option maxRecDepth 100000 in
/-- Witness for C16: the record of "u" at the end of `fullDayRun`, with count 5. -/
theorem C16_count_between_0_and_5_witness :
    fiveDoneProgress ∈ (runCalls emptyDB fullDayRun).daily_task_progress ∧
    fiveDoneProgress.CompletedCount = 5 ∧
    0 ≤ fiveDoneProgress.CompletedCount ∧ fiveDoneProgress.CompletedCount ≤ 5 :=
  ⟨by decide, by decide, C16_count_between_0_and_5 fullDayRun fiveDoneProgress (by decide)⟩

/-- C17: for a user with no progress record and no stored task, GET tasks/daily at
instant now returns the five tasks numbered 1, 2, 3, 4, 5 in this order, created
in this request, uncompleted, with resetAt = the midnight following now, together
with completedCount 0, lastCompletedAt and cooldownUntil unset and nextResetAt =
the midnight following now; afterwards the user's stored tasks are exactly these
five (with the creation time in whole milliseconds, as the store holds it) and the
user has exactly one progress record. -/
theorem C17_first_visit (db : DB) (now : Int) (userID : String)
    (hnoProgress : progressOf db userID = none)
    (hnoTasks : ∀ t ∈ db.daily_tasks, t.UserID ≠ userID) :
    (GetDailyTasks (atInstant db now) userID).1 =
      { tasks := [freshTask (db.nextID + 1) userID 1 now (AddDate (startOfDay now) 1),
                  freshTask (db.nextID + 2) userID 2 now (AddDate (startOfDay now) 1),
                  freshTask (db.nextID + 3) userID 3 now (AddDate (startOfDay now) 1),
                  freshTask (db.nextID + 4) userID 4 now (AddDate (startOfDay now) 1),
                  freshTask (db.nextID + 5) userID 5 now (AddDate (startOfDay now) 1)],
        completedCount := 0, lastCompletedAt := none,
        nextResetAt := AddDate (startOfDay now) 1, cooldownUntil := none } ∧
    (GetDailyTasks (atInstant db now) userID).2.db.daily_tasks.filter
        (fun t => t.UserID == userID) =
      [freshTask (db.nextID + 1) userID 1 (bsonDateTime now) (AddDate (startOfDay now) 1),
       freshTask (db.nextID + 2) userID 2 (bsonDateTime now) (AddDate (startOfDay now) 1),
       freshTask (db.nextID + 3) userID 3 (bsonDateTime now) (AddDate (startOfDay now) 1),
       freshTask (db.nextID + 4) userID 4 (bsonDateTime now) (AddDate (startOfDay now) 1),
       freshTask (db.nextID + 5) userID 5 (bsonDateTime now) (AddDate (startOfDay now) 1)] ∧
    (GetDailyTasks (atInstant db now) userID).2.db.daily_task_progress.filter
        (fun p => p.UserID == userID) = [freshProgress db.nextID userID now] := by
  have hf : List.find? (fun p => p.UserID == userID) db.daily_task_progress = none := hnoProgress
  have hfilterP := filter_eq_nil_of_find?_none _ _ hf
  have hfilterT : db.daily_tasks.filter (fun t => t.UserID == userID) = [] := by
    rw [List.filter_eq_nil_iff]
    intro t ht
    simpa using hnoTasks t ht
  unfold GetDailyTasks
  simp only []
  rw [CheckAndResetDaily_create db now userID hnoProgress,
    GetOrCreateDailyTasks_create
      { db with
        daily_task_progress := db.daily_task_progress ++ [freshProgress db.nextID userID now],
        nextID := db.nextID + 1 } now userID hnoTasks]
  simp only []
  rw [GetOrCreateProgress_atInstant_some _ now userID (freshProgress db.nextID userID now)
    (by simp [progressOf, findOne, List.find?_append, hf, freshProgress])]
  refine ⟨rfl, ?_, ?_⟩
  · simp [atInstant, List.filter_append, hfilterT, freshTask]
  · simp [atInstant, List.filter_append, hfilterP, freshProgress]

/-- Witness for C17: the first visit of "u" on the empty store at 09:00. -/
theorem C17_first_visit_witness :
    progressOf emptyDB "u" = none ∧
    (∀ t ∈ emptyDB.daily_tasks, t.UserID ≠ "u") ∧
    (GetDailyTasks (atInstant emptyDB nineAM) "u").1 =
      { tasks := [freshTask 2 "u" 1 nineAM Day, freshTask 3 "u" 2 nineAM Day,
                  freshTask 4 "u" 3 nineAM Day, freshTask 5 "u" 4 nineAM Day,
                  freshTask 6 "u" 5 nineAM Day],
        completedCount := 0, lastCompletedAt := none, nextResetAt := Day,
        cooldownUntil := none } ∧
    (GetDailyTasks (atInstant emptyDB nineAM) "u").2.db.daily_task_progress.filter
        (fun p => p.UserID == "u") = [freshProgress emptyDB.nextID "u" nineAM] :=
  ⟨by decide, by decide, by decide,
   (C17_first_visit emptyDB nineAM "u" (by decide) (by decide)).2.2⟩

/-- C19 as stated fails: on the empty store at 09:00:00.0009 the first call for "u"
returns the record it built, with createdAt 09:00:00.0009, and the second call
returns the stored record, with createdAt 09:00:00.000: the two returned records
differ. -/
theorem C19_second_call_returns_stored_times :
    progressOf emptyDB "u" = none ∧
    (GetOrCreateProgress (atInstant emptyDB (nineAM + 900000)) "u").1.CreatedAt
      = nineAM + 900000 ∧
    (GetOrCreateProgress (GetOrCreateProgress (atInstant emptyDB (nineAM + 900000)) "u").2
      "u").1.CreatedAt = nineAM ∧
    (GetOrCreateProgress (GetOrCreateProgress (atInstant emptyDB (nineAM + 900000)) "u").2
      "u").1 ≠ (GetOrCreateProgress (atInstant emptyDB (nineAM + 900000)) "u").1 := by
  decide

/-- C19 (amended): in any world, GetOrCreateProgress returns the stored record of
the user and leaves the store unchanged when one exists; otherwise it returns a
new record with completedCount 0, lastCompletedAt and cooldown end unset and
nextResetAt = the midnight following the clock reading, and appends it as the
store holds it. A second call changes nothing and returns the stored record: the
record of the first call when one existed, and otherwise that record with
createdAt and updatedAt in whole milliseconds and every other field the same.
When the store held at most one record for the user before, it holds exactly one
after the two calls. -/
theorem C19_getOrCreateProgress (w : World) (userID : String) :
    (∀ p, progressOf w.db userID = some p →
      (GetOrCreateProgress w userID).1 = p ∧ (GetOrCreateProgress w userID).2.db = w.db ∧
      (GetOrCreateProgress (GetOrCreateProgress w userID).2 userID).1 = p) ∧
    (progressOf w.db userID = none →
      (GetOrCreateProgress w userID).1 =
        { ID := w.db.nextID, UserID := userID, CompletedCount := 0, LastCompletedAt := none,
          LastCooldownEnd := none, NextResetAt := AddDate (startOfDay (w.clock 0)) 1,
          CreatedAt := w.clock 1, UpdatedAt := w.clock 2 } ∧
      (GetOrCreateProgress w userID).2.db.daily_task_progress =
        w.db.daily_task_progress ++
          [{ (GetOrCreateProgress w userID).1 with
              CreatedAt := bsonDateTime (w.clock 1), UpdatedAt := bsonDateTime (w.clock 2) }] ∧
      (GetOrCreateProgress w userID).2.db.daily_tasks = w.db.daily_tasks ∧
      (GetOrCreateProgress (GetOrCreateProgress w userID).2 userID).1 =
        { (GetOrCreateProgress w userID).1 with
            CreatedAt := bsonDateTime (w.clock 1), UpdatedAt := bsonDateTime (w.clock 2) }) ∧
    (GetOrCreateProgress (GetOrCreateProgress w userID).2 userID).2.db
      = (GetOrCreateProgress w userID).2.db ∧
    ((w.db.daily_task_progress.filter (fun p => p.UserID == userID)).length ≤ 1 →
      ((GetOrCreateProgress (GetOrCreateProgress w userID).2 userID).2.db.daily_task_progress.filter
        (fun p => p.UserID == userID)).length = 1) := by
  obtain ⟨q, hq⟩ := GetOrCreateProgress_exists w userID
  have htwice := GetOrCreateProgress_some (GetOrCreateProgress w userID).2 userID q hq
  refine ⟨?_, ?_, htwice.2, ?_⟩
  · intro p hp
    obtain ⟨h1, h2⟩ := GetOrCreateProgress_some w userID p hp
    refine ⟨h1, h2, ?_⟩
    rw [h2] at hq
    rw [htwice.1]
    rw [hp] at hq
    cases hq
    rfl
  · intro hnone
    rw [htwice.1]
    rw [GetOrCreateProgress_none w userID hnone] at hq ⊢
    refine ⟨rfl, rfl, rfl, ?_⟩
    simp only [progressOf, findOne, List.find?_append] at hnone hq
    rw [hnone] at hq
    simp at hq
    exact hq.symm
  · intro hle
    rw [htwice.2]
    cases hp : progressOf w.db userID with
    | some p =>
      rw [(GetOrCreateProgress_some w userID p hp).2]
      have hmem : p ∈ w.db.daily_task_progress.filter (fun p => p.UserID == userID) := by
        have hf : List.find? (fun p => p.UserID == userID) w.db.daily_task_progress = some p := hp
        have hps := List.find?_some hf
        exact List.mem_filter.2 ⟨List.mem_of_find?_eq_some hf, hps⟩
      have hpos := List.length_pos_of_mem hmem
      omega
    | none =>
      have hf : List.find? (fun p => p.UserID == userID) w.db.daily_task_progress = none := hp
      rw [GetOrCreateProgress_none w userID hp]
      simp [List.filter_append, filter_eq_nil_of_find?_none _ _ hf]

/-- Witness for C19 (amended): two calls for "u" on the empty store at
09:00:00.0009. -/
theorem C19_getOrCreateProgress_witness :
    progressOf (atInstant emptyDB (nineAM + 900000)).db "u" = none ∧
    (GetOrCreateProgress (GetOrCreateProgress (atInstant emptyDB (nineAM + 900000)) "u").2
        "u").1 =
      { (GetOrCreateProgress (atInstant emptyDB (nineAM + 900000)) "u").1 with
          CreatedAt := bsonDateTime (nineAM + 900000),
          UpdatedAt := bsonDateTime (nineAM + 900000) } ∧
    ((atInstant emptyDB (nineAM + 900000)).db.daily_task_progress.filter
      (fun p => p.UserID == "u")).length ≤ 1 ∧
    ((GetOrCreateProgress (GetOrCreateProgress (atInstant emptyDB (nineAM + 900000)) "u").2
        "u").2.db.daily_task_progress.filter (fun p => p.UserID == "u")).length = 1 :=
  ⟨by decide,
   ((C19_getOrCreateProgress (atInstant emptyDB (nineAM + 900000)) "u").2.1 (by decide)).2.2.2,
   by decide,
   (C19_getOrCreateProgress (atInstant emptyDB (nineAM + 900000)) "u").2.2.2 (by decide)⟩

/-- C20: in any world, when the CompleteTask call of POST tasks/complete succeeds,
the response is the success body with pointsAwarded = 20, and a user whose object
id is the caller's user id and who has p points before has p + 20 points after;
when the CompleteTask call returns an error, the users collection is unchanged. -/
theorem C20_points_awarded (w : World) (users : List User) (userID taskID : String) :
    ((CompleteTask w userID taskID).1.err = none →
      (∃ task completedCount nextResetAt cooldownUntil,
        (CompleteTaskDaily w users userID taskID).1 =
          CompleteTaskResponse.ok true (some task) (some completedCount) (some nextResetAt)
            (some cooldownUntil) 20) ∧
      ∀ uid points, ObjectIDFromHex userID = some uid → pointsOf users uid = some points →
        pointsOf (CompleteTaskDaily w users userID taskID).2.2 uid = some (points + 20)) ∧
    ((CompleteTask w userID taskID).1.err ≠ none →
      (CompleteTaskDaily w users userID taskID).2.2 = users) := by
  constructor
  · intro herr
    obtain ⟨objID, found, _, _, hid, _, heq⟩ := CompleteTask_success w userID taskID herr
    have hne : (taskID == "") = false := by
      cases hb : (taskID == "") with
      | false => rfl
      | true =>
        have : taskID = "" := by simpa using hb
        rw [this, ObjectIDFromHex_empty] at hid
        cases hid
    constructor
    · unfold CompleteTaskDaily
      simp only [hne, Bool.false_eq_true, if_false, herr]
      rw [heq]
      exact ⟨_, _, _, _, rfl⟩
    · intro uid points huid hpts
      unfold CompleteTaskDaily
      simp only [hne, Bool.false_eq_true, if_false, herr, AddPointsToUser, huid]
      unfold pointsOf findOne at hpts ⊢
      split <;>
      · simp only []
        rw [find?_updateOne]
        · cases hf : List.find? (fun u => u.ID == uid) users with
          | none => rw [hf] at hpts; cases hpts
          | some u =>
            rw [hf] at hpts
            simp only [Option.map_some', Option.some.injEq] at hpts
            simp [POINTS_PER_TASK, hpts]
        · intro x hx
          exact hx
  · intro herr
    unfold CompleteTaskDaily
    split
    · rfl
    · cases he : (CompleteTask w userID taskID).1.err with
      | none => exact absurd he herr
      | some e => simp only [he]

/-- Witness for C20: alice, with 40 points, completes task 1 at 09:00 and has 60
points; a second attempt two minutes later is rejected and leaves the users
collection as it is. -/
theorem C20_points_awarded_witness :
    (CompleteTask (atInstant aliceStore nineAM) aliceID "000000000000000000000001").1.err
      = none ∧
    ObjectIDFromHex aliceID = some 255 ∧
    pointsOf aliceUsers 255 = some 40 ∧
    pointsOf (CompleteTaskDaily (atInstant aliceStore nineAM) aliceUsers aliceID
      "000000000000000000000001").2.2 255 = some (40 + 20) ∧
    (CompleteTask
      (atInstant (CompleteTask (atInstant aliceStore nineAM) aliceID
        "000000000000000000000001").2.db (nineAM + 2 * Minute))
      aliceID "000000000000000000000002").1.err ≠ none ∧
    (CompleteTaskDaily
      (atInstant (CompleteTask (atInstant aliceStore nineAM) aliceID
        "000000000000000000000001").2.db (nineAM + 2 * Minute))
      aliceUsers aliceID "000000000000000000000002").2.2 = aliceUsers :=
  ⟨by decide, by decide, by decide,
   ((C20_points_awarded (atInstant aliceStore nineAM) aliceUsers aliceID
     "000000000000000000000001").1 (by decide)).2 255 40 (by decide) (by decide),
   by decide,
   (C20_points_awarded
     (atInstant (CompleteTask (atInstant aliceStore nineAM) aliceID
       "000000000000000000000001").2.db (nineAM + 2 * Minute))
     aliceUsers aliceID "000000000000000000000002").2 (by decide)⟩

/-- C21: in any world in which the CompleteTask call of POST tasks/complete
succeeds, the response is the success body built from the result of CompleteTask
(a success payload) with pointsAwarded = 20, and the world afterwards is the one
CompleteTask left; neither depends on the users collection, hence not on whether
AddPointsToUser succeeds or fails. -/
theorem C21_response_independent_of_points (w : World) (users : List User)
    (userID taskID : String) (h : (CompleteTask w userID taskID).1.err = none) :
    (CompleteTaskDaily w users userID taskID).1 =
      CompleteTaskResponse.ok true (resultTask (CompleteTask w userID taskID).1.result)
        (resultCompletedCount (CompleteTask w userID taskID).1.result)
        (resultNextResetAt (CompleteTask w userID taskID).1.result)
        (resultCooldownUntil (CompleteTask w userID taskID).1.result) 20 ∧
    (∃ task completed_count next_reset_at cooldown_until,
      (CompleteTask w userID taskID).1.result =
        some (CompleteResult.success task completed_count next_reset_at cooldown_until)) ∧
    (CompleteTaskDaily w users userID taskID).2.1 = (CompleteTask w userID taskID).2 ∧
    ∀ users2 : List User,
      (CompleteTaskDaily w users2 userID taskID).1 = (CompleteTaskDaily w users userID taskID).1 ∧
      (CompleteTaskDaily w users2 userID taskID).2.1
        = (CompleteTaskDaily w users userID taskID).2.1 := by
  obtain ⟨objID, found, _, _, hid, _, heq⟩ := CompleteTask_success w userID taskID h
  have hne : (taskID == "") = false := by
    cases hb : (taskID == "") with
    | false => rfl
    | true =>
      have : taskID = "" := by simpa using hb
      rw [this, ObjectIDFromHex_empty] at hid
      cases hid
  have hshape : ∀ us : List User,
      (CompleteTaskDaily w us userID taskID).1 =
        CompleteTaskResponse.ok true (resultTask (CompleteTask w userID taskID).1.result)
          (resultCompletedCount (CompleteTask w userID taskID).1.result)
          (resultNextResetAt (CompleteTask w userID taskID).1.result)
          (resultCooldownUntil (CompleteTask w userID taskID).1.result) 20 ∧
      (CompleteTaskDaily w us userID taskID).2.1 = (CompleteTask w userID taskID).2 := by
    intro us
    unfold CompleteTaskDaily
    simp only [hne, Bool.false_eq_true, if_false, h]
    constructor <;> first | rfl | trivial
  refine ⟨(hshape users).1, ?_, (hshape users).2, ?_⟩
  · rw [heq]
    exact ⟨_, _, _, _, rfl⟩
  · intro users2
    rw [(hshape users2).1, (hshape users2).2, (hshape users).1, (hshape users).2]
    exact ⟨rfl, rfl⟩

/-- Witness for C21: alice completes task 1 at 09:00; with alice in the users
collection the increment succeeds, with an empty collection it fails, and the
response and the world are the same; for the user id "u" the increment fails on
the id itself. -/
theorem C21_response_independent_of_points_witness :
    (CompleteTask (atInstant aliceStore nineAM) aliceID "000000000000000000000001").1.err
      = none ∧
    (AddPointsToUser aliceUsers aliceID POINTS_PER_TASK).1 = none ∧
    (AddPointsToUser [] aliceID POINTS_PER_TASK).1 = some "user not found" ∧
    (AddPointsToUser [] "u" POINTS_PER_TASK).1 = some "invalid user ID" ∧
    (CompleteTaskDaily (atInstant aliceStore nineAM) [] aliceID "000000000000000000000001").1
      = (CompleteTaskDaily (atInstant aliceStore nineAM) aliceUsers aliceID
          "000000000000000000000001").1 ∧
    (CompleteTaskDaily (atInstant aliceStore nineAM) [] aliceID "000000000000000000000001").2.1
      = (CompleteTaskDaily (atInstant aliceStore nineAM) aliceUsers aliceID
          "000000000000000000000001").2.1 :=
  ⟨by decide, by decide, by decide, by decide,
   ((C21_response_independent_of_points (atInstant aliceStore nineAM) aliceUsers aliceID
      "000000000000000000000001" (by decide)).2.2.2 []).1,
   ((C21_response_independent_of_points (atInstant aliceStore nineAM) aliceUsers aliceID
      "000000000000000000000001" (by decide)).2.2.2 []).2⟩

/-- C22 (the code departs from it): the progress record has nextResetAt = midnight of
day 1 and completedCount = 1 after a completion at 23:58 of day 0; at 00:01 of day
1 GET tasks/cooldown reports completedCount = 1 and isCooldownActive = true with
120 seconds remaining, while GET tasks/daily and the reset check of CompleteTask
at the same instant give completedCount = 0. -/
theorem C22_cooldown_skips_reset :
    (progressOf lateEveningStore "u").map (fun p => (p.NextResetAt, p.CompletedCount))
      = some (Day, 1) ∧
    Before Day (Day + Minute) = true ∧
    (CheckCooldown (atInstant lateEveningStore (Day + Minute)) "u").1 =
      { isCooldownActive := true, remainingSeconds := 120,
        lastCompletedAt := some (Day - 2 * Minute), completedCount := 1 } ∧
    (GetDailyTasks (atInstant lateEveningStore (Day + Minute)) "u").1.completedCount = 0 ∧
    (loadedProgress (atInstant lateEveningStore (Day + Minute)) "u").1.CompletedCount = 0 := by
  decide

/-- C23 (the code departs from it): two and three minutes into the cooldown
CompleteTask computes remaining_seconds 180 and 120, and the response of POST
tasks/complete is in both cases the status 500 with error and debug equal to
"cooldown period active"; in any world, a cooldown rejection yields exactly this
body, whatever the payload of CompleteTask holds. -/
theorem C23_error_body_drops_remaining_seconds :
    remainingSecondsOf (CompleteTask (atInstant oneDoneStore (nineAM + 2 * Minute)) "u"
      "000000000000000000000002").1 = some 180 ∧
    remainingSecondsOf (CompleteTask (atInstant oneDoneStore (nineAM + 3 * Minute)) "u"
      "000000000000000000000002").1 = some 120 ∧
    (CompleteTaskDaily (atInstant oneDoneStore (nineAM + 2 * Minute)) [] "u"
      "000000000000000000000002").1
      = CompleteTaskResponse.serverError "cooldown period active" "cooldown period active" ∧
    (CompleteTaskDaily (atInstant oneDoneStore (nineAM + 3 * Minute)) [] "u"
      "000000000000000000000002").1
      = CompleteTaskResponse.serverError "cooldown period active" "cooldown period active" ∧
    (∀ (w : World) (users : List User) (userID taskID : String),
      taskID ≠ "" →
      (CompleteTask w userID taskID).1.err = some "cooldown period active" →
      (CompleteTaskDaily w users userID taskID).1
        = CompleteTaskResponse.serverError "cooldown period active" "cooldown period active") :=
  ⟨by decide, by decide, by decide, by decide,
   fun w users userID taskID hid h => CompleteTaskDaily_error w users userID taskID _ hid h⟩

/-- C24: `GetLeaderboard` does not fix the order of its two sort keys, so the
ranking by points is not guaranteed. With "alice" (10 points) and "bob" (50 points)
stored, a driver that writes the username key first returns alice with rank 1
ahead of bob, and a driver that refuses a two-key map returns an error and no
list; only the reading with the points key first ranks bob first, and under that
reading every returned list is ordered by points descending, ties by username
ascending. The effective limit and the ranks 1, 2, ..., n hold under every reading
that returns a list. -/
theorem C24_leaderboard_not_ordered_by_points :
    (GetLeaderboard SortReading.usernameThenPoints twoUsers 10).1 =
      some [{ ID := 1, Username := "alice", Email := "alice@example.com", Points := 10, Rank := 1 },
            { ID := 2, Username := "bob", Email := "bob@example.com", Points := 50, Rank := 2 }] ∧
    GetLeaderboard SortReading.rejected twoUsers 10 =
      (none, some "multi-key map passed in for ordered parameter sort") ∧
    (GetLeaderboard SortReading.pointsThenUsername twoUsers 10).1 =
      some [{ ID := 2, Username := "bob", Email := "bob@example.com", Points := 50, Rank := 1 },
            { ID := 1, Username := "alice", Email := "alice@example.com", Points := 10, Rank := 2 }] ∧
    (∀ (reading : SortReading) (users : List User) (limit : Int) (l : List LeaderboardUser),
      (GetLeaderboard reading users limit).1 = some l →
        (l.length : Int) ≤ effectiveLimit limit ∧
        ∀ (k : Nat) (u : LeaderboardUser), l[k]? = some u → u.Rank = k + 1) ∧
    (∀ (users : List User) (limit : Int) (l : List LeaderboardUser),
      (GetLeaderboard SortReading.pointsThenUsername users limit).1 = some l →
        l.Pairwise rankedNoLaterThan) := by
  refine ⟨by decide, by decide, by decide, ?_, ?_⟩
  · intro reading users limit l h
    exact GetLeaderboard_limit_rank reading users limit l h
  · intro users limit l h
    exact GetLeaderboard_pointsFirst_ordered users limit l h

/-- C25: `GetStreakCount` counts the flags that are set, not the longest run of
adjacent ones. For the record with Monday and Wednesday set and Tuesday clear it
returns 2, while the longest run of adjacent true flags has length 1. The result
is between 0 and 7 for every store and every user id. -/
theorem C25_streak_count_is_not_longest_run :
    (GetStreakCount monWedWorld "000000000000000000000001").1 = (2, none) ∧
    (GetStreakByUserID monWedWorld "000000000000000000000001").1 = (some monWedStreak, none) ∧
    longestRun (weekFlags monWedStreak) = 1 ∧
    (∀ (w : StreakWorld) (userID : String),
      0 ≤ (GetStreakCount w userID).1.1 ∧ (GetStreakCount w userID).1.1 ≤ 7) := by
  refine ⟨by decide, by decide, by decide, ?_⟩
  intro w userID
  cases hg : (GetStreakByUserID w userID).1.1 with
  | none => simp [GetStreakCount, hg]
  | some streak =>
    simp only [GetStreakCount, hg]
    cases streak.Mon <;> cases streak.Tue <;> cases streak.Wed <;> cases streak.Thu <;>
      cases streak.Fri <;> cases streak.Sat <;> cases streak.Sun <;> simp

/-- C26: the lookup of `GetOrCreateDailyTasks` keeps the tasks whose `reset_at`
lies in `[today, tomorrow)`, so it never returns a task whose `reset_at` is
tomorrow's midnight, the value `createFiveTasks` writes. On the store written by
`createFiveTasks` for "u" at 09:00 (today = 0, tomorrow = `Day`), the lookup made
at 10:00 of the same day returns no task, while the five tasks of today's set are
stored. -/
theorem C26_lookup_misses_todays_set :
    startOfDay (nineAM + 60 * Minute) = 0 ∧
    AddDate (startOfDay (nineAM + 60 * Minute)) 1 = Day ∧
    (taskSet createdStore "u" Day).map (fun t => (t.ID, t.TaskNumber, t.ResetAt))
      = [(1, 1, Day), (2, 2, Day), (3, 3, Day), (4, 4, Day), (5, 5, Day)] ∧
    dailyTasksFind createdStore "u" (nineAM + 60 * Minute) = [] ∧
    (∀ (db : DB) (now : Int) (userID : String),
      GetOrCreateDailyTasks (atInstant db now) userID =
        if (dailyTasksFind db userID now).length = 0 then
          createFiveTasks (atInstant db now) userID (startOfDay now) (AddDate (startOfDay now) 1)
        else (dailyTasksFind db userID now, atInstant db now)) ∧
    (∀ (db : DB) (userID : String) (now : Int) (t : DailyTask),
      t ∈ dailyTasksFind db userID now → t.ResetAt ≠ AddDate (startOfDay now) 1) := by
  refine ⟨by decide, by decide, by decide, by decide, ?_, ?_⟩
  · intro db now userID
    exact GetOrCreateDailyTasks_find db now userID
  · intro db userID now t h
    exact dailyTasksFind_excludes_today db userID now t h

/-- C27 as stated fails: on the store in which "u" completed task 1 at 09:00, a
run whose clock stays at 09:05 and a run whose clock starts at 09:05 and advances
by one millisecond per reading agree on the first reading, yet return different
results and leave different stores; in the second run the cooldown check compares
the reading 09:05:00.004 while the instant stored as lastCompletedAt is
09:05:00.005. -/
theorem C27_later_readings_change_the_outcome :
    steadyClock 0 = tickingClock 0 ∧
    (CompleteTask { db := oneDoneStore, clock := steadyClock } "u"
        "000000000000000000000002").1 ≠
      (CompleteTask { db := oneDoneStore, clock := tickingClock } "u"
        "000000000000000000000002").1 ∧
    (CompleteTask { db := oneDoneStore, clock := steadyClock } "u"
        "000000000000000000000002").2.db ≠
      (CompleteTask { db := oneDoneStore, clock := tickingClock } "u"
        "000000000000000000000002").2.db ∧
    (loadedProgress { db := oneDoneStore, clock := tickingClock } "u").2.clock 0
      = nineAM + 5 * Minute + 4 * Millisecond ∧
    (progressOf (CompleteTask { db := oneDoneStore, clock := tickingClock } "u"
        "000000000000000000000002").2.db "u").map (fun p => p.LastCompletedAt)
      = some (some (nineAM + 5 * Minute + 5 * Millisecond)) := by
  decide

/-- C27 (amended): one CompleteTask call is a function of the store and of the
first sixteen clock readings: two runs from the same store whose clocks agree on
these produce the same result and the same final store. When the call succeeds it
uses three successive readings, numbers j, j + 1 and j + 2 for some j ≤ 13: the
cooldown check compares reading j with lastCompletedAt, reading j + 1 is stored,
in whole milliseconds, as completedAt and lastCompletedAt and gives the returned
cooldown_until by adding 5 minutes, and nextResetAt is the midnight following
reading j + 2. -/
theorem C27_call_is_a_function_of_its_readings (db : DB) (c1 c2 : Nat → Int)
    (userID taskID : String) (hagree : ∀ k, k < 16 → c1 k = c2 k) :
    (CompleteTask { db := db, clock := c1 } userID taskID).1
      = (CompleteTask { db := db, clock := c2 } userID taskID).1 ∧
    (CompleteTask { db := db, clock := c1 } userID taskID).2.db
      = (CompleteTask { db := db, clock := c2 } userID taskID).2.db ∧
    ((CompleteTask { db := db, clock := c1 } userID taskID).1.err = none →
      ∃ (j : Nat) (task : DailyTask) (completed_count next_reset_at cooldown_until : Int)
        (q : DailyTaskProgress),
        j ≤ 13 ∧
        (CompleteTask { db := db, clock := c1 } userID taskID).1.result
          = some (CompleteResult.success task completed_count next_reset_at cooldown_until) ∧
        progressOf (CompleteTask { db := db, clock := c1 } userID taskID).2.db userID = some q ∧
        cooldownRejection (loadedProgress { db := db, clock := c1 } userID).1 (c1 j) = none ∧
        task.CompletedAt = some (bsonDateTime (c1 (j + 1))) ∧
        q.LastCompletedAt = some (bsonDateTime (c1 (j + 1))) ∧
        cooldown_until = c1 (j + 1) + 5 * Minute ∧
        next_reset_at = AddDate (startOfDay (c1 (j + 2))) 1 ∧
        q.NextResetAt = next_reset_at) := by
  obtain ⟨h1, h2, _⟩ := CompleteTask_reads userID taskID
    { db := db, clock := c1 } { db := db, clock := c2 } rfl hagree
  refine ⟨h1, h2, ?_⟩
  intro herr
  obtain ⟨_, _, j, hj, hc, _⟩ := loadedProgress_reads userID
    { db := db, clock := c1 } { db := db, clock := c1 } rfl (fun _ _ => rfl)
  simp only at hc
  obtain ⟨objID, found, _, hcd, _, _, heq⟩ := CompleteTask_success _ userID taskID herr
  have hs := loadedProgress_stored { db := db, clock := c1 } userID
  have e0 : (loadedProgress { db := db, clock := c1 } userID).2.clock 0 = c1 j := by
    rw [hc]; congr 1; omega
  have e1 : (loadedProgress { db := db, clock := c1 } userID).2.clock 1 = c1 (j + 1) := by
    rw [hc]; congr 1; omega
  have e2 : (loadedProgress { db := db, clock := c1 } userID).2.clock 2 = c1 (j + 2) := by
    rw [hc]; congr 1; omega
  rw [e0] at hcd
  rw [heq]
  simp only [e1, e2]
  refine ⟨j, _, _, _, _,
    { (loadedProgress { db := db, clock := c1 } userID).1 with
      CompletedCount := (loadedProgress { db := db, clock := c1 } userID).1.CompletedCount + 1,
      LastCompletedAt := some (bsonDateTime (c1 (j + 1))),
      LastCooldownEnd := some (bsonDateTime (c1 (j + 1)) + 5 * Minute),
      NextResetAt := AddDate (startOfDay (c1 (j + 2))) 1,
      UpdatedAt := bsonDateTime (c1 (j + 1)) }, hj, rfl, ?_, hcd, rfl, rfl, rfl, rfl, rfl⟩
  simp only [progressOf, findOne] at hs ⊢
  rw [find?_updateOne, hs]
  · rfl
  · intro x hx
    exact hx

/-- C27 (amended) at a concrete input: on the store in which "u" completed task 1,
the clock that stays at 09:05 and the clock that returns 09:05 for sixteen
readings and the epoch afterwards give the same result and the same final
store. -/
theorem C27_call_is_a_function_of_its_readings_witness :
    (∀ k, k < 16 → steadyClock k = cutClock k) ∧
    (CompleteTask { db := oneDoneStore, clock := steadyClock } "u"
        "000000000000000000000002").1
      = (CompleteTask { db := oneDoneStore, clock := cutClock } "u"
        "000000000000000000000002").1 ∧
    (CompleteTask { db := oneDoneStore, clock := steadyClock } "u"
        "000000000000000000000002").2.db
      = (CompleteTask { db := oneDoneStore, clock := cutClock } "u"
        "000000000000000000000002").2.db :=
  have h : ∀ k, k < 16 → steadyClock k = cutClock k := by
    intro k hk
    simp [steadyClock, cutClock, hk]
  ⟨h, (C27_call_is_a_function_of_its_readings oneDoneStore steadyClock cutClock "u"
        "000000000000000000000002" h).1,
      (C27_call_is_a_function_of_its_readings oneDoneStore steadyClock cutClock "u"
        "000000000000000000000002" h).2.1⟩

/-- C28: at every instant now, getTodayMidnight returns the instant m on the same
calendar day as now (the same day number, hence the same year, month and day)
whose hour, minute, second and nanosecond are zero; m ≤ now < m + 24 h, and
getTodayMidnight evaluated at m returns m. -/
theorem C28_today_midnight (db : DB) (now : Int) :
    dayNumber (getTodayMidnight (atInstant db now)).1 = dayNumber now ∧
    hourOf (getTodayMidnight (atInstant db now)).1 = 0 ∧
    minuteOf (getTodayMidnight (atInstant db now)).1 = 0 ∧
    secondOf (getTodayMidnight (atInstant db now)).1 = 0 ∧
    nanosecondOf (getTodayMidnight (atInstant db now)).1 = 0 ∧
    (getTodayMidnight (atInstant db now)).1 ≤ now ∧
    now < (getTodayMidnight (atInstant db now)).1 + 24 * (60 * Minute) ∧
    (getTodayMidnight (atInstant db (getTodayMidnight (atInstant db now)).1)).1
      = (getTodayMidnight (atInstant db now)).1 := by
  simp only [getTodayMidnight_atInstant]
  unfold dayNumber hourOf minuteOf secondOf nanosecondOf startOfDay Day Minute Second
  refine ⟨?_, ?_, ?_, ?_, ?_, ?_, ?_, ?_⟩ <;> omega

/-- C29 (the code departs from it): `CompleteTask` selects the task by `_id` alone.
On the store that holds the five fresh tasks of "u", the call of user "v" with the
id of task 1 of "u" succeeds and marks that task of "u" completed. The progress
part holds: the progress record of any other user is the same after the call. -/
theorem C29_completion_changes_another_users_task :
    (findOne (fun t => t.ID == 1) freshTasksStore.daily_tasks).map
      (fun t => (t.UserID, t.Completed, t.CompletedAt)) = some ("u", false, none) ∧
    (CompleteTask (atInstant freshTasksStore nineAM) "v" "000000000000000000000001").1.err
      = none ∧
    (findOne (fun t => t.ID == 1)
      (CompleteTask (atInstant freshTasksStore nineAM) "v"
        "000000000000000000000001").2.db.daily_tasks).map
      (fun t => (t.UserID, t.Completed, t.CompletedAt)) = some ("u", true, some nineAM) ∧
    (∀ (w : World) (a taskID b : String), a ≠ b →
      progressOf (CompleteTask w a taskID).2.db b = progressOf w.db b) := by
  refine ⟨by decide, by decide, by decide, ?_⟩
  intro w a taskID b h
  exact CompleteTask_frame w a taskID b h

/-- C30: for a stored progress record with completedCount < 5 and nextResetAt not
before now, at one instant now CheckCooldown reports isCooldownActive = true
exactly when CompleteTask is rejected with the cooldown error; in that case the
remaining_seconds of the rejection is the remainingSeconds that CheckCooldown
reports; and CheckCooldown reports remainingSeconds = 0 whenever isCooldownActive
is false. -/
theorem C30_cooldown_agreement (db : DB) (now : Int) (userID taskID : String)
    (p : DailyTaskProgress) (hp : progressOf db userID = some p)
    (hcount : p.CompletedCount < 5) (hreset : ¬ p.NextResetAt < now) :
    ((CheckCooldown (atInstant db now) userID).1.isCooldownActive = true ↔
      (CompleteTask (atInstant db now) userID taskID).1.err = some "cooldown period active") ∧
    ((CheckCooldown (atInstant db now) userID).1.isCooldownActive = true →
      remainingSecondsOf (CompleteTask (atInstant db now) userID taskID).1
        = some (CheckCooldown (atInstant db now) userID).1.remainingSeconds) ∧
    ((CheckCooldown (atInstant db now) userID).1.isCooldownActive = false →
      (CheckCooldown (atInstant db now) userID).1.remainingSeconds = 0) := by
  have h5 : ¬ p.CompletedCount ≥ 5 := by omega
  unfold CompleteTask CheckCooldown
  simp only [CheckAndResetDaily_noReset db now userID p hp hreset,
    GetOrCreateProgress_atInstant_some db now userID p hp, timeNow_atInstant, if_neg h5,
    cooldownRejection]
  cases hl : p.LastCompletedAt with
  | none =>
    simp only []
    cases ObjectIDFromHex taskID with
    | none => simp [remainingSecondsOf]
    | some objID =>
      simp only []
      cases findOne (fun t => t.ID == objID) (atInstant db now).db.daily_tasks with
      | none => simp [ErrNoDocuments]
      | some found => simp
  | some last =>
    simp only []
    by_cases hs : Sub now last < 5 * Minute
    · simp [hs, remainingSecondsOf]
    · simp only [if_neg hs]
      cases ObjectIDFromHex taskID with
      | none => simp
      | some objID =>
        simp only []
        cases findOne (fun t => t.ID == objID) (atInstant db now).db.daily_tasks with
        | none => simp [ErrNoDocuments]
        | some found => simp

/-- C30 at a concrete input: two minutes after "u" completed task 1 at 09:00. -/
theorem C30_cooldown_agreement_witness :
    progressOf oneDoneStore "u" = some oneDoneProgress ∧
    oneDoneProgress.CompletedCount < 5 ∧
    ¬ oneDoneProgress.NextResetAt < nineAM + 2 * Minute ∧
    (CheckCooldown (atInstant oneDoneStore (nineAM + 2 * Minute)) "u").1.isCooldownActive
      = true ∧
    remainingSecondsOf
        (CompleteTask (atInstant oneDoneStore (nineAM + 2 * Minute)) "u"
          "000000000000000000000002").1
      = some (CheckCooldown (atInstant oneDoneStore (nineAM + 2 * Minute)) "u").1.remainingSeconds :=
  have h1 : progressOf oneDoneStore "u" = some oneDoneProgress := by decide
  have h2 : oneDoneProgress.CompletedCount < 5 := by decide
  have h3 : ¬ oneDoneProgress.NextResetAt < nineAM + 2 * Minute := by decide
  have h4 : (CheckCooldown (atInstant oneDoneStore (nineAM + 2 * Minute)) "u").1.isCooldownActive
      = true := by decide
  ⟨h1, h2, h3, h4,
    (C30_cooldown_agreement oneDoneStore (nineAM + 2 * Minute) "u" "000000000000000000000002"
      oneDoneProgress h1 h2 h3).2.1 h4⟩

end RewardFlow
